import Mathlib

/-!
Verification of the textworld multi-room session engine (main.py).

Modelling conventions, used throughout:
- Python dicts are association lists with last-write-wins assignment.
- Python strings are lists of characters (sequences of code points).
- Player and room identities are opaque tokens, modelled as naturals;
  the uuid4 fresh-id generation of create_room is modelled as a counter
  carried by the manager.
- Wall-clock timestamps and outbound chat messages are not modelled:
  they never influence the control flow of the properties under study.
- asyncio tasks created by the timeout scheduler are modelled as records
  carrying a fresh task id (from a counter) and their sleep duration.
-/

section Dict

variable {κ : Type} [DecidableEq κ] {α : Type}

/-- Lookup in an association list, mirroring Python dict access. -/
def dlookup (k : κ) : List (κ × α) → Option α
  | [] => none
  | e :: t => if e.1 = k then some e.2 else dlookup k t

/-- Removal of a key, mirroring Python dict del / pop with default. -/
def derase (k : κ) : List (κ × α) → List (κ × α)
  | [] => []
  | e :: t => if e.1 = k then derase k t else e :: derase k t

/-- Assignment of a key, mirroring Python dict item assignment. -/
def dinsert (k : κ) (v : α) (l : List (κ × α)) : List (κ × α) :=
  derase k l ++ [(k, v)]

/-- In-place update of every value, mirroring a Python loop over dict values. -/
def dmapVal (f : α → α) (l : List (κ × α)) : List (κ × α) :=
  l.map (fun e => (e.1, f e.2))

/-- The key set of an association list. -/
def dkeys (l : List (κ × α)) : List κ := l.map Prod.fst

/-- The value list of an association list, mirroring Python dict values. -/
def dvalues (l : List (κ × α)) : List α := l.map Prod.snd

theorem dlookup_append_some {k : κ} {l r : List (κ × α)} {v : α}
    (h : dlookup k l = some v) : dlookup k (l ++ r) = some v := by
  induction l with
  | nil => simp [dlookup] at h
  | cons e t ih =>
    by_cases he : e.1 = k
    · simpa [dlookup, he] using by simpa [dlookup, he] using h
    · simp only [dlookup, he, if_false, List.cons_append] at h ⊢
      simp [dlookup, he, ih h]

theorem dlookup_append_none {k : κ} {l r : List (κ × α)}
    (h : dlookup k l = none) : dlookup k (l ++ r) = dlookup k r := by
  induction l with
  | nil => simp
  | cons e t ih =>
    by_cases he : e.1 = k
    · simp [dlookup, he] at h
    · simp only [dlookup, he, if_false] at h
      simp [dlookup, he, ih h]

theorem dlookup_derase_self (k : κ) (l : List (κ × α)) :
    dlookup k (derase k l) = none := by
  induction l with
  | nil => rfl
  | cons e t ih =>
    by_cases he : e.1 = k
    · simpa [derase, he] using ih
    · simpa [derase, dlookup, he] using ih

theorem dlookup_derase_ne {k' k : κ} (h : k' ≠ k) (l : List (κ × α)) :
    dlookup k' (derase k l) = dlookup k' l := by
  induction l with
  | nil => rfl
  | cons e t ih =>
    by_cases he : e.1 = k
    · have hne : e.1 ≠ k' := fun hc => h (hc ▸ he)
      rw [derase, if_pos he, ih, dlookup, if_neg hne]
    · rw [derase, if_neg he, dlookup, dlookup]
      by_cases he' : e.1 = k'
      · simp [he']
      · simp [he', ih]

theorem dlookup_dinsert_self (k : κ) (v : α) (l : List (κ × α)) :
    dlookup k (dinsert k v l) = some v := by
  rw [dinsert, dlookup_append_none (dlookup_derase_self k l)]
  simp [dlookup]

theorem dlookup_dinsert_ne {k' k : κ} (h : k' ≠ k) (v : α) (l : List (κ × α)) :
    dlookup k' (dinsert k v l) = dlookup k' l := by
  rw [dinsert]
  cases hc : dlookup k' (derase k l) with
  | none =>
    rw [dlookup_append_none hc]
    rw [dlookup_derase_ne h] at hc
    simp [dlookup, Ne.symm h, hc]
  | some v' =>
    rw [dlookup_append_some hc]
    rw [dlookup_derase_ne h] at hc
    exact hc.symm

theorem dlookup_dinsert (k' k : κ) (v : α) (l : List (κ × α)) :
    dlookup k' (dinsert k v l) = if k' = k then some v else dlookup k' l := by
  by_cases h : k' = k
  · simp [h, dlookup_dinsert_self]
  · simp [h, dlookup_dinsert_ne h]

theorem dlookup_dmapVal (f : α → α) (k : κ) (l : List (κ × α)) :
    dlookup k (dmapVal f l) = (dlookup k l).map f := by
  induction l with
  | nil => rfl
  | cons e t ih =>
    by_cases he : e.1 = k
    · simp [dmapVal, dlookup, he]
    · simpa [dmapVal, dlookup, he] using ih

theorem dlookup_foldl_derase {β : Type} (g : β → κ) (q : κ) (xs : List β)
    (m : List (κ × α)) :
    dlookup q (xs.foldl (fun acc x => derase (g x) acc) m) =
      if q ∈ xs.map g then none else dlookup q m := by
  induction xs generalizing m with
  | nil => simp
  | cons x t ih =>
    rw [List.foldl_cons, ih, List.map_cons]
    by_cases hq : q = g x
    · subst hq
      simp [dlookup_derase_self]
    · rw [dlookup_derase_ne hq]
      by_cases hm : q ∈ t.map g
      · simp [hm]
      · simp [hm, hq]

theorem dlookup_foldl_dinsert_not_mem {k : κ} (f : α → α) {p : List (κ × α)}
    (h : ∀ e ∈ p, e.1 ≠ k) (acc : List (κ × α)) :
    dlookup k (p.foldl (fun a e => dinsert e.1 (f e.2) a) acc) = dlookup k acc := by
  induction p generalizing acc with
  | nil => rfl
  | cons e t ih =>
    rw [List.foldl_cons, ih (fun x hx => h x (List.mem_cons_of_mem e hx))]
    exact dlookup_dinsert_ne (fun hc => h e (List.mem_cons_self e t) hc.symm) _ _

theorem dlookup_foldl_dinsert {k : κ} (f : α → α) {p : List (κ × α)}
    (hnd : (dkeys p).Nodup) (acc : List (κ × α)) :
    dlookup k (p.foldl (fun a e => dinsert e.1 (f e.2) a) acc) =
      match dlookup k p with
      | some v => some (f v)
      | none => dlookup k acc := by
  induction p generalizing acc with
  | nil => rfl
  | cons e t ih =>
    rw [dkeys, List.map_cons, List.nodup_cons] at hnd
    rw [List.foldl_cons]
    by_cases he : e.1 = k
    · have hnot : ∀ x ∈ t, x.1 ≠ k := by
        intro x hx hc
        exact hnd.1 (he ▸ hc ▸ List.mem_map_of_mem Prod.fst hx)
      rw [dlookup_foldl_dinsert_not_mem f hnot, he, dlookup_dinsert_self, dlookup, if_pos he]
    · rw [ih hnd.2, dlookup, if_neg he]
      cases dlookup k t with
      | some v => rfl
      | none => exact dlookup_dinsert_ne (fun hc => he hc.symm) _ _

theorem dkeys_derase_sublist (k : κ) (l : List (κ × α)) :
    (dkeys (derase k l)).Sublist (dkeys l) := by
  induction l with
  | nil => simp [derase, dkeys]
  | cons e t ih =>
    have hck : dkeys (e :: t) = e.1 :: dkeys t := rfl
    by_cases he : e.1 = k
    · rw [derase, if_pos he, hck]
      exact ih.cons e.1
    · have hck2 : dkeys (e :: derase k t) = e.1 :: dkeys (derase k t) := rfl
      rw [derase, if_neg he, hck2, hck]
      exact ih.cons₂ e.1

theorem dkeys_nodup_derase {k : κ} {l : List (κ × α)} (h : (dkeys l).Nodup) :
    (dkeys (derase k l)).Nodup :=
  (dkeys_derase_sublist k l).nodup h

theorem not_mem_dkeys_derase_self (k : κ) (l : List (κ × α)) :
    k ∉ dkeys (derase k l) := by
  induction l with
  | nil => simp [derase, dkeys]
  | cons e t ih =>
    by_cases he : e.1 = k
    · rw [derase, if_pos he]
      exact ih
    · rw [derase, if_neg he, dkeys, List.map_cons, List.mem_cons]
      rintro (hc | hm)
      · exact he hc.symm
      · exact ih hm

theorem dkeys_nodup_dinsert {k : κ} (v : α) {l : List (κ × α)}
    (h : (dkeys l).Nodup) : (dkeys (dinsert k v l)).Nodup := by
  have hsplit : dkeys (dinsert k v l) = dkeys (derase k l) ++ [k] := by
    simp [dinsert, dkeys]
  rw [hsplit]
  refine List.Nodup.append (dkeys_nodup_derase h) (List.nodup_singleton k) ?_
  intro a ha hb
  rw [List.mem_singleton] at hb
  exact not_mem_dkeys_derase_self k l (hb ▸ ha)

omit [DecidableEq κ] in
theorem dkeys_dmapVal (f : α → α) (l : List (κ × α)) :
    dkeys (dmapVal f l) = dkeys l := by
  simp [dmapVal, dkeys, List.map_map]

theorem dkeys_nodup_foldl_dinsert (f : α → α) (p : List (κ × α)) {acc : List (κ × α)}
    (h : (dkeys acc).Nodup) :
    (dkeys (p.foldl (fun a e => dinsert e.1 (f e.2) a) acc)).Nodup := by
  induction p generalizing acc with
  | nil => exact h
  | cons e t ih => exact ih (dkeys_nodup_dinsert _ h)

theorem dlookup_isSome_iff_mem_dkeys {k : κ} {l : List (κ × α)} :
    (dlookup k l).isSome ↔ k ∈ dkeys l := by
  induction l with
  | nil => simp [dlookup, dkeys]
  | cons e t ih =>
    by_cases he : e.1 = k
    · simp [dlookup, he, dkeys]
    · rw [dlookup, if_neg he, dkeys, List.map_cons, List.mem_cons]
      rw [dkeys] at ih
      simp only [ih]
      constructor
      · exact Or.inr
      · rintro (hc | hm)
        · exact absurd hc.symm he
        · exact hm

end Dict

/-! ## Data model (main.py lines 30-205) -/

/-- RoomStatus enum (main.py lines 30-35). -/
inductive RoomStatus
  | WAITING
  | CHARACTER_CREATION
  | ACTIVE
  | PAUSED
  | CLOSED
deriving DecidableEq, Repr

/-- PlayerStatus enum (main.py lines 38-44). -/
inductive PlayerStatus
  | ACTIVE
  | PENDING
  | TIMEOUT
  | ACTED
  | CREATING_CHAR
  | CHAR_DONE
deriving DecidableEq, Repr

/-- CreationStep enum of the room-creation wizard (main.py lines 47-53). -/
inductive CreationStep
  | ROOM_NAME
  | TIMEOUT
  | WORLD_SETTING
  | WORLD_TOO_LONG
  | SUMMARIZING
  | CONFIRM
deriving DecidableEq, Repr

/-- Player dataclass (main.py lines 69-86). The reply address
(unified_msg_origin) and the wall-clock fields join_time and
last_action_time are omitted: they are write-only data never read by the
control flow under study. -/
structure Player where
  player_id : Nat
  player_name : List Char
  character_name : Option (List Char) := none
  character_setting : Option (List Char) := none
  status : PlayerStatus := PlayerStatus.ACTIVE
  current_action : Option (List Char) := none
deriving DecidableEq, Repr

/-- Player.reset_for_new_round (main.py lines 81-83). -/
def Player.reset_for_new_round (p : Player) : Player :=
  { p with status := PlayerStatus.ACTIVE, current_action := none }

/-- Player.has_character (main.py lines 85-86). -/
def Player.has_character (p : Player) : Bool :=
  p.character_name.isSome && p.character_setting.isSome

/-- PendingConfig dataclass (main.py lines 89-92). -/
structure PendingConfig where
  timeout : Option Nat := none
  correction_text : Option (List Char) := none
deriving DecidableEq, Repr

/-- GameHistory dataclass (main.py lines 95-100); the timestamp is omitted. -/
structure GameHistory where
  round_number : Nat
  player_actions : List (List Char × List Char)
  dm_response : List Char
deriving DecidableEq, Repr

/-- Room dataclass (main.py lines 103-127). The host reply address
(host_umo), original_world_setting and the wall-clock fields
round_start_time, char_creation_start_time and created_at are omitted:
they are never read by the control flow under study. -/
structure Room where
  room_id : Nat
  room_name : List Char
  host_id : Nat
  world_setting : List Char
  status : RoomStatus := RoomStatus.WAITING
  paused : Bool := false
  active_players : List (Nat × Player) := []
  pending_players : List (Nat × Player) := []
  timeout : Nat := 300
  char_creation_timeout : Nat := 180
  pending_config : PendingConfig := {}
  current_round : Nat := 0
  history : List GameHistory := []
deriving DecidableEq, Repr

/-- Room.get_all_players (main.py lines 129-130). -/
def Room.get_all_players (r : Room) : List Player :=
  dvalues r.active_players ++ dvalues r.pending_players

/-- Room.get_active_player_count (main.py lines 135-136). -/
def Room.get_active_player_count (r : Room) : Nat :=
  r.active_players.length

/-- Room.is_host (main.py lines 138-139). -/
def Room.is_host (r : Room) (player_id : Nat) : Bool :=
  decide (player_id = r.host_id)

/-- Room.activate_pending_players (main.py lines 141-145): every pending
player is set Active and written into the active map, then pending is
cleared. -/
def Room.activate_pending_players (r : Room) : Room :=
  { r with
    active_players :=
      r.pending_players.foldl
        (fun a e => dinsert e.1 { e.2 with status := PlayerStatus.ACTIVE } a)
        r.active_players,
    pending_players := [] }

/-- Room.apply_pending_config (main.py lines 147-149): a staged timeout
override is copied onto the room; note that the staged value itself is
not cleared by this method. -/
def Room.apply_pending_config (r : Room) : Room :=
  match r.pending_config.timeout with
  | some t => { r with timeout := t }
  | none => r

/-- Room.start_character_creation (main.py lines 151-155). -/
def Room.start_character_creation (r : Room) : Room :=
  { r with
    status := RoomStatus.CHARACTER_CREATION,
    active_players :=
      dmapVal (fun p => { p with status := PlayerStatus.CREATING_CHAR }) r.active_players }

/-- Room.check_all_characters_done (main.py lines 157-158). -/
def Room.check_all_characters_done (r : Room) : Bool :=
  r.active_players.all (fun e => decide (e.2.status = PlayerStatus.CHAR_DONE))

/-- Room.start_new_round (main.py lines 160-164). -/
def Room.start_new_round (r : Room) : Room :=
  { r with
    current_round := r.current_round + 1,
    active_players := dmapVal Player.reset_for_new_round r.active_players }

/-- Room.check_all_players_acted (main.py lines 166-167). -/
def Room.check_all_players_acted (r : Room) : Bool :=
  r.active_players.all (fun e => decide (e.2.status ≠ PlayerStatus.ACTIVE))

/-- Room.check_all_players_timeout (main.py lines 169-170). -/
def Room.check_all_players_timeout (r : Room) : Bool :=
  r.active_players.all (fun e => decide (e.2.status = PlayerStatus.TIMEOUT))

/-- Display name used for a player in round actions: character_name or
player_name, with Python falsiness (an empty character name also falls
back to the player name). -/
def Player.display_name (p : Player) : List Char :=
  match p.character_name with
  | some n => if n = [] then p.player_name else n
  | none => p.player_name

/-- The contribution of one player to the round-actions mapping: the
pair of display name and action when the recorded action is truthy
(non-None and non-empty), nothing otherwise (main.py lines 173-176). -/
def roundActionEntry (p : Player) : Option (List Char × List Char) :=
  match p.current_action with
  | some a => if a = [] then none else some (p.display_name, a)
  | none => none

/-- Room.get_round_actions (main.py lines 172-177): the actions mapping
of every active player with a truthy (non-None, non-empty) recorded
action. -/
def Room.get_round_actions (r : Room) : List (List Char × List Char) :=
  (dvalues r.active_players).filterMap roundActionEntry

/-! ## Room registry (main.py lines 210-326) -/

/-- Outcome of RoomManager.join_room; the Chinese reply strings of the
source are modelled as an enum (in source order: room missing, room
closed, game already started, already in another room, room full,
joined). -/
inductive JoinResult
  | notFound
  | closed
  | alreadyStarted
  | alreadyInRoom
  | full
  | joined
deriving DecidableEq, Repr

/-- Outcome of RoomManager.leave_room. -/
inductive LeaveResult
  | notInRoom
  | hostLeftRoomClosed
  | left
deriving DecidableEq, Repr

/-- Outcome of RoomManager.pause_room. -/
inductive PauseResult
  | notFound
  | notHost
  | alreadyPaused
  | paused
deriving DecidableEq, Repr

/-- Outcome of RoomManager.resume_room. -/
inductive ResumeResult
  | notFound
  | notHost
  | notPaused
  | resumed
deriving DecidableEq, Repr

/-- RoomManager state (main.py lines 210-214). next_room_id models the
uuid4 fresh-id supply of create_room as a counter. -/
structure RoomManager where
  rooms : List (Nat × Room) := []
  player_room_map : List (Nat × Nat) := []
  max_rooms : Nat := 10
  next_room_id : Nat := 0
deriving DecidableEq, Repr

/-- RoomManager.can_create_room (main.py lines 216-217). -/
def RoomManager.can_create_room (m : RoomManager) : Bool :=
  decide (m.rooms.length < m.max_rooms)

/-- RoomManager.get_room (main.py lines 240-241). -/
def RoomManager.get_room (m : RoomManager) (room_id : Nat) : Option Room :=
  dlookup room_id m.rooms

/-- RoomManager.get_room_by_player (main.py lines 243-245). The source
returns the aliased room object; the model returns the key it lives
under together with its value. -/
def RoomManager.get_room_by_player (m : RoomManager) (player_id : Nat) :
    Option (Nat × Room) :=
  match dlookup player_id m.player_room_map with
  | none => none
  | some room_id => (dlookup room_id m.rooms).map (fun r => (room_id, r))

/-- RoomManager.create_room (main.py lines 219-238). -/
def RoomManager.create_room (m : RoomManager) (host_id : Nat)
    (host_name : List Char) (room_name : List Char) (world_setting : List Char)
    (timeout : Nat := 300) (char_timeout : Nat := 180) :
    Option Room × RoomManager :=
  if ¬m.can_create_room ∨ (dlookup host_id m.player_room_map).isSome then
    (none, m)
  else
    let room_id := m.next_room_id
    let host_player : Player := { player_id := host_id, player_name := host_name }
    let room : Room :=
      { room_id := room_id, room_name := room_name, host_id := host_id,
        world_setting := world_setting, timeout := timeout,
        char_creation_timeout := char_timeout,
        active_players := [(host_id, host_player)] }
    (some room,
      { m with
        rooms := dinsert room_id room m.rooms,
        player_room_map := dinsert host_id room_id m.player_room_map,
        next_room_id := room_id + 1 })

/-- RoomManager.join_room (main.py lines 247-270). -/
def RoomManager.join_room (m : RoomManager) (room_id : Nat) (player_id : Nat)
    (player_name : List Char) (max_players : Nat := 8) :
    JoinResult × RoomManager :=
  match dlookup room_id m.rooms with
  | none => (JoinResult.notFound, m)
  | some room =>
    if room.status = RoomStatus.CLOSED then (JoinResult.closed, m)
    else if room.status = RoomStatus.CHARACTER_CREATION ∨
        room.status = RoomStatus.ACTIVE then (JoinResult.alreadyStarted, m)
    else if (dlookup player_id m.player_room_map).isSome then
      (JoinResult.alreadyInRoom, m)
    else if room.get_active_player_count + room.pending_players.length ≥
        max_players then (JoinResult.full, m)
    else
      let player : Player := { player_id := player_id, player_name := player_name }
      let room' :=
        if room.paused then
          { room with
            pending_players :=
              dinsert player_id { player with status := PlayerStatus.PENDING }
                room.pending_players }
        else
          { room with active_players := dinsert player_id player room.active_players }
      (JoinResult.joined,
        { m with
          rooms := dinsert room_id room' m.rooms,
          player_room_map := dinsert player_id room_id m.player_room_map })

/-- RoomManager.close_room (main.py lines 286-295): every member is
removed from the reverse index and the room is deleted. (The source
also sets the status of the discarded object to CLOSED, which is
unobservable once the room is dropped from the registry.) -/
def RoomManager.close_room (m : RoomManager) (room_id : Nat) :
    Bool × RoomManager :=
  match dlookup room_id m.rooms with
  | none => (false, m)
  | some room =>
    (true,
      { m with
        rooms := derase room_id m.rooms,
        player_room_map :=
          room.get_all_players.foldl
            (fun acc p => derase p.player_id acc) m.player_room_map })

/-- RoomManager.leave_room (main.py lines 272-284). -/
def RoomManager.leave_room (m : RoomManager) (player_id : Nat) :
    LeaveResult × RoomManager :=
  match m.get_room_by_player player_id with
  | none => (LeaveResult.notInRoom, m)
  | some (room_id, room) =>
    let room1 :=
      { room with
        active_players := derase player_id room.active_players,
        pending_players := derase player_id room.pending_players }
    let m1 :=
      { m with
        rooms := dinsert room_id room1 m.rooms,
        player_room_map := derase player_id m.player_room_map }
    if player_id = room.host_id then
      (LeaveResult.hostLeftRoomClosed, (m1.close_room room1.room_id).2)
    else
      (LeaveResult.left, m1)

/-- RoomManager.pause_room (main.py lines 300-311). -/
def RoomManager.pause_room (m : RoomManager) (room_id : Nat) (player_id : Nat) :
    PauseResult × RoomManager :=
  match dlookup room_id m.rooms with
  | none => (PauseResult.notFound, m)
  | some room =>
    if ¬room.is_host player_id then (PauseResult.notHost, m)
    else if room.paused then (PauseResult.alreadyPaused, m)
    else
      (PauseResult.paused,
        { m with
          rooms :=
            dinsert room_id { room with paused := true, status := RoomStatus.PAUSED }
              m.rooms })

/-- RoomManager.resume_room (main.py lines 313-326): applies the staged
configuration, admits pending players, then returns the room to the
Active phase. -/
def RoomManager.resume_room (m : RoomManager) (room_id : Nat) (player_id : Nat) :
    ResumeResult × RoomManager :=
  match dlookup room_id m.rooms with
  | none => (ResumeResult.notFound, m)
  | some room =>
    if ¬room.is_host player_id then (ResumeResult.notHost, m)
    else if ¬room.paused then (ResumeResult.notPaused, m)
    else
      let room' := room.apply_pending_config.activate_pending_players
      (ResumeResult.resumed,
        { m with
          rooms :=
            dinsert room_id { room' with paused := false, status := RoomStatus.ACTIVE }
              m.rooms })

/-! ## Plugin state, timeout scheduler and round orchestration
(main.py lines 400-441, 1033-1068, 1312-1361, 1365-1427) -/

/-- Key of an entry in timeout_tasks: the source uses the room id string
for the round timer and the string "char_" prefixed to it for the
character-creation timer. -/
inductive TaskKey
  | roundOf (room_id : Nat)
  | charOf (room_id : Nat)
deriving DecidableEq, Repr

/-- An asyncio timer task: create_task is modelled as allocating a fresh
task id; the sleep duration it was started with is recorded. -/
structure TimerTask where
  task_id : Nat
  duration : Nat
deriving DecidableEq, Repr

/-- The mutable plugin state relevant to the claims: the room manager
and the timeout-task registry (main.py lines 430-435). -/
structure Plugin where
  rm : RoomManager := {}
  timeout_tasks : List (TaskKey × TimerTask) := []
  next_task_id : Nat := 0
deriving DecidableEq, Repr

/-- TextworldPlugin._stop_timeout (main.py lines 1429-1436): pops and
cancels the task under the key. -/
def Plugin.stop_timeout (s : Plugin) (key : TaskKey) : Plugin :=
  { s with timeout_tasks := derase key s.timeout_tasks }

/-- TextworldPlugin._start_timeout registration (main.py lines
1396-1398, 1427): cancel any previous round timer for the room, then
create a fresh task sleeping room.timeout seconds. -/
def Plugin.start_timeout (s : Plugin) (room_id : Nat) (duration : Nat) : Plugin :=
  let s1 := s.stop_timeout (TaskKey.roundOf room_id)
  { s1 with
    timeout_tasks :=
      dinsert (TaskKey.roundOf room_id)
        { task_id := s1.next_task_id, duration := duration } s1.timeout_tasks,
    next_task_id := s1.next_task_id + 1 }

/-- TextworldPlugin._start_char_creation_timeout registration (main.py
lines 1365-1367, 1394). -/
def Plugin.start_char_creation_timeout (s : Plugin) (room_id : Nat)
    (duration : Nat) : Plugin :=
  let s1 := s.stop_timeout (TaskKey.charOf room_id)
  { s1 with
    timeout_tasks :=
      dinsert (TaskKey.charOf room_id)
        { task_id := s1.next_task_id, duration := duration } s1.timeout_tasks,
    next_task_id := s1.next_task_id + 1 }

/-- Write one room back into the registry under its key (the source
mutates the aliased room object held by the rooms dict in place). -/
def Plugin.setRoom (s : Plugin) (room_id : Nat) (r : Room) : Plugin :=
  { s with rm := { s.rm with rooms := dinsert room_id r s.rm.rooms } }

/-- Outcome of one generation-backend interaction inside _process_round
(main.py lines 1322-1337): either no provider is configured
(get_current_chat_provider_id returns None), or the llm call returns
with a completion text (None/empty modelled as the empty list), or the
awaited call raises and is caught by the surrounding except block. -/
inductive GenOutcome
  | noProvider
  | resp (text : List Char)
  | raises
deriving DecidableEq, Repr

/-- Python str.strip on a character list. -/
def trimChars (l : List Char) : List Char :=
  ((l.dropWhile Char.isWhitespace).reverse.dropWhile Char.isWhitespace).reverse

/-- The neutral placeholder narration substituted when the backend
yields no usable text (main.py line 1337). -/
def placeholderResponse : List Char := "（无响应）".data

/-- The DM response stored for a round: the stripped completion text,
or the placeholder when the completion is falsy (main.py line 1337). -/
def dmResponseOf (text : List Char) : List Char :=
  if text = [] then placeholderResponse else trimChars text

/-- First atomic section of _process_round (main.py lines 1314-1320),
up to the awaits on the provider lookup and the generation call:
collects the round actions and aborts resolution when the set is empty. -/
def process_round_pre (r : Room) : Option (List (List Char × List Char)) :=
  let actions := r.get_round_actions
  if actions = [] then none else some actions

/-- Atomic section of _process_round directly after the generation
await (main.py lines 1339-1340): append the GameHistory record for the
current round and clear the staged correction note. Separately named
because the broadcast that follows it is itself an await point. -/
def resolve_append (s : Plugin) (room_id : Nat)
    (actions : List (List Char × List Char)) (text : List Char) : Plugin :=
  match dlookup room_id s.rm.rooms with
  | none => s
  | some r =>
    s.setRoom room_id
      { r with
        history :=
          r.history ++
            [{ round_number := r.current_round, player_actions := actions,
               dm_response := dmResponseOf text }],
        pending_config := { r.pending_config with correction_text := none } }

/-- Atomic section of _process_round after the result broadcast
(main.py line 1356): advance to the next round. -/
def resolve_advance (s : Plugin) (room_id : Nat) : Plugin :=
  match dlookup room_id s.rm.rooms with
  | none => s
  | some r => s.setRoom room_id r.start_new_round

/-- Tail of _process_round from the first await onward (main.py lines
1322-1361), given the single combined outcome of the provider lookup
and generation call. When no provider is found the function returns
after a broadcast (line 1324-1325); when the generation call raises,
the except block logs and returns (lines 1359-1361); in both cases no
history is appended, the round is not advanced and the round timer is
not restarted. -/
def process_round_finish (s : Plugin) (room_id : Nat)
    (actions : List (List Char × List Char)) (gen : GenOutcome) : Plugin :=
  match gen with
  | GenOutcome.noProvider => s
  | GenOutcome.raises => s
  | GenOutcome.resp text =>
    let s1 := resolve_append s room_id actions text
    let s2 := resolve_advance s1 room_id
    match dlookup room_id s2.rm.rooms with
    | some r => s2.start_timeout room_id r.timeout
    | none => s2

/-- TextworldPlugin._process_round run without interleaving (main.py
lines 1312-1361). -/
def process_round (s : Plugin) (room_id : Nat) (gen : GenOutcome) : Plugin :=
  match dlookup room_id s.rm.rooms with
  | none => s
  | some r =>
    match process_round_pre r with
    | none => s
    | some actions => process_round_finish s room_id actions gen

/-- The cmd_act handler up to and excluding its call into _process_round
(main.py lines 1033-1067): validates the room and player, records the
action, marks the player Acted, and reports the room id when
check_all_players_acted now holds (so that resolution is triggered). -/
def cmd_act_record (s : Plugin) (player_id : Nat) (action : List Char) :
    Plugin × Option Nat :=
  if action = [] then (s, none)
  else
    match s.rm.get_room_by_player player_id with
    | none => (s, none)
    | some (room_id, room) =>
      if room.paused then (s, none)
      else if room.status ≠ RoomStatus.ACTIVE then (s, none)
      else
        match dlookup player_id room.active_players with
        | none => (s, none)
        | some player =>
          if player.status = PlayerStatus.ACTED then (s, none)
          else
            let player' :=
              { player with
                current_action := some action, status := PlayerStatus.ACTED }
            let room' :=
              { room with
                active_players := dinsert player_id player' room.active_players }
            let s' := s.setRoom room_id room'
            (s', if room'.check_all_players_acted then some room_id else none)

/-- The full cmd_act handler run without interleaving (main.py lines
1033-1068). -/
def cmd_act (s : Plugin) (player_id : Nat) (action : List Char)
    (gen : GenOutcome) : Plugin :=
  match cmd_act_record s player_id action with
  | (s', none) => s'
  | (s', some room_id) => process_round s' room_id gen

/-- The body of the round-timer loop over active players (main.py lines
1407-1411): every player still Active is marked TimedOut. -/
def Room.mark_round_timeouts (r : Room) : Room :=
  { r with
    active_players :=
      dmapVal
        (fun p =>
          if p.status = PlayerStatus.ACTIVE then
            { p with status := PlayerStatus.TIMEOUT }
          else p)
        r.active_players }

/-- First atomic section of the round-timer callback after its sleep
elapses (main.py lines 1403-1420), up to the awaits of its own
_process_round call: re-checks room existence, pause flag and phase;
marks still-Active players TimedOut; closes the room when every active
player is now TimedOut; otherwise starts resolution and reports the
collected actions. Returns the updated state together with the actions
when resolution proceeds past its empty-actions guard. -/
def round_timer_fire_pre (s : Plugin) (room_id : Nat) :
    Plugin × Option (List (List Char × List Char)) :=
  match dlookup room_id s.rm.rooms with
  | none => (s, none)
  | some r =>
    if r.paused ∨ r.status ≠ RoomStatus.ACTIVE then (s, none)
    else
      let r' := r.mark_round_timeouts
      let s' := s.setRoom room_id r'
      if r'.check_all_players_timeout then
        ({ s' with rm := (s'.rm.close_room room_id).2 }, none)
      else
        match process_round_pre r' with
        | none => (s', none)
        | some actions => (s', some actions)

/-- The full round-timer callback run without interleaving (main.py
lines 1400-1427). -/
def round_timer_fire (s : Plugin) (room_id : Nat) (gen : GenOutcome) : Plugin :=
  match round_timer_fire_pre s room_id with
  | (s', none) => s'
  | (s', some actions) => process_round_finish s' room_id actions gen

/-- The default character setting auto-assigned on character-creation
timeout (main.py line 1380). -/
def defaultCharacterSetting : List Char := "一位神秘的冒险者".data

/-- The body of the character-creation-timer loop over active players
(main.py lines 1376-1382): every player still in CreatingCharacter
status is assigned their own player name as character name plus the
default setting, and marked CharacterDone. -/
def Room.mark_default_characters (r : Room) : Room :=
  { r with
    active_players :=
      dmapVal
        (fun p =>
          if p.status = PlayerStatus.CREATING_CHAR then
            { p with
              character_name := some p.player_name,
              character_setting := some defaultCharacterSetting,
              status := PlayerStatus.CHAR_DONE }
          else p)
        r.active_players }

/-- TextworldPlugin._start_game_after_characters (main.py lines
875-896): transition to Active, start round one, broadcast the opening
(the opening narration is an outbound message only, with a built-in
fallback line, so it does not appear in the state), start the round
timer. -/
def start_game_after_characters (s : Plugin) (room_id : Nat) : Plugin :=
  match dlookup room_id s.rm.rooms with
  | none => s
  | some r =>
    let r2 := ({ r with status := RoomStatus.ACTIVE } : Room).start_new_round
    (s.setRoom room_id r2).start_timeout room_id r2.timeout

/-- The character-creation-timer callback run without interleaving
(main.py lines 1369-1392): after the sleep, re-checks room existence
and phase, assigns default characters to every still-pending player,
then runs the game-start sequence unconditionally. -/
def char_timer_fire (s : Plugin) (room_id : Nat) : Plugin :=
  match dlookup room_id s.rm.rooms with
  | none => s
  | some r =>
    if r.status ≠ RoomStatus.CHARACTER_CREATION then s
    else
      start_game_after_characters (s.setRoom room_id r.mark_default_characters)
        room_id

/-! ## Creation wizard (main.py lines 56-66, 670-757) -/

/-- PendingCreation dataclass (main.py lines 56-66); the reply address
and the wall-clock created_at field are omitted. -/
structure PendingCreation where
  player_id : Nat
  player_name : List Char
  step : CreationStep := CreationStep.ROOM_NAME
  room_name : Option (List Char) := none
  timeout : Option Nat := none
  world_setting : Option (List Char) := none
  original_world_setting : Option (List Char) := none
deriving DecidableEq, Repr

/-- Python str.lower on a character list. -/
def lowerChars (l : List Char) : List Char := l.map Char.toLower

/-- The choice literals accepted by the world-too-long menu (main.py
lines 710, 725, 731). -/
def summarizeChoices : List (List Char) :=
  ["总结".data, "1".data, "ai".data, "summary".data]

def truncateChoices : List (List Char) :=
  ["截断".data, "2".data, "cut".data, "truncate".data]

def keepChoices : List (List Char) :=
  ["保留".data, "3".data, "keep".data, "full".data]

/-- TextworldPlugin._handle_world_setting (main.py lines 670-699): the
WorldSetting wizard step. world_template is the configured template
text (empty when unconfigured, Python falsy). -/
def handle_world_setting (max_length : Nat) (world_template : List Char)
    (pending : PendingCreation) (text : List Char) : PendingCreation :=
  if (text = "默认".data ∨ text = "default".data) ∧ world_template ≠ [] then
    { pending with world_setting := some world_template,
                   step := CreationStep.CONFIRM }
  else if text.length < 10 then pending
  else if text.length > max_length then
    { pending with original_world_setting := some text,
                   step := CreationStep.WORLD_TOO_LONG }
  else
    { pending with world_setting := some text, step := CreationStep.CONFIRM }

/-- Outcome of _summarize_world_setting as observed by the wizard
(main.py lines 552-570, 714): success carries the summary text. -/
inductive SummarizeOutcome
  | ok (summary : List Char)
  | failed
deriving DecidableEq, Repr

/-- TextworldPlugin._handle_world_too_long_choice (main.py lines
701-757): the WorldTooLong wizard step. The transient Summarizing step
and the replies are not observable in the resulting wizard record, so
only the net state update is modelled. -/
def handle_world_too_long_choice (max_length : Nat)
    (pending : PendingCreation) (text : List Char)
    (summarize : SummarizeOutcome) : PendingCreation :=
  let choice := trimChars (lowerChars text)
  let original := pending.original_world_setting.getD []
  if choice ∈ summarizeChoices then
    match summarize with
    | SummarizeOutcome.ok summary =>
      { pending with world_setting := some summary,
                     step := CreationStep.CONFIRM }
    | SummarizeOutcome.failed =>
      { pending with step := CreationStep.WORLD_TOO_LONG }
  else if choice ∈ truncateChoices then
    { pending with world_setting := some (original.take max_length),
                   step := CreationStep.CONFIRM }
  else if choice ∈ keepChoices then
    { pending with world_setting := some original,
                   step := CreationStep.CONFIRM }
  else if text.length ≥ 10 then
    if text.length ≤ max_length then
      { pending with world_setting := some text,
                     original_world_setting := none,
                     step := CreationStep.CONFIRM }
    else
      { pending with original_world_setting := some text }
  else pending

/-! ## Claims -/

/-- Claim C9: in the WorldTooLong wizard state, the input "truncate"
stores exactly the first max_length characters of the stashed original
text as the world setting and advances the wizard to Confirm; when the
original is at least max_length long, the stored text has length
exactly max_length. -/
theorem world_too_long_truncate (max_length : Nat) (pending : PendingCreation)
    (orig : List Char) (summarize : SummarizeOutcome)
    (_hstep : pending.step = CreationStep.WORLD_TOO_LONG)
    (horig : pending.original_world_setting = some orig) :
    (handle_world_too_long_choice max_length pending "truncate".data summarize).world_setting
        = some (orig.take max_length) ∧
    (handle_world_too_long_choice max_length pending "truncate".data summarize).step
        = CreationStep.CONFIRM ∧
    (max_length ≤ orig.length →
      (((handle_world_too_long_choice max_length pending "truncate".data
          summarize).world_setting).getD []).length = max_length) := by
  have h1 : trimChars (lowerChars "truncate".data) ∉ summarizeChoices := by decide
  have h2 : trimChars (lowerChars "truncate".data) ∈ truncateChoices := by decide
  simp only [handle_world_too_long_choice]
  rw [if_neg h1, if_pos h2, horig]
  refine ⟨rfl, rfl, fun hle => ?_⟩
  simp [List.length_take, Nat.min_eq_left hle]

/-- Concrete instance of C9: a 5000-character original against a
4000-character limit yields a stored world setting of exactly 4000
characters and the Confirm step. -/
def pendingC9 : PendingCreation :=
  { player_id := 1, player_name := "p".data,
    step := CreationStep.WORLD_TOO_LONG,
    original_world_setting := some (List.replicate 5000 'a') }

theorem world_too_long_truncate_witness :
    (handle_world_too_long_choice 4000 pendingC9 "truncate".data
        SummarizeOutcome.failed).world_setting
      = some ((List.replicate 5000 'a').take 4000) ∧
    (handle_world_too_long_choice 4000 pendingC9 "truncate".data
        SummarizeOutcome.failed).step = CreationStep.CONFIRM ∧
    (((handle_world_too_long_choice 4000 pendingC9 "truncate".data
        SummarizeOutcome.failed).world_setting).getD []).length = 4000 := by
  have h := world_too_long_truncate 4000 pendingC9 (List.replicate 5000 'a')
    SummarizeOutcome.failed rfl rfl
  refine ⟨h.1, h.2.1, h.2.2 ?_⟩
  rw [List.length_replicate]
  norm_num

/-- Claim C4: JoinRoom is rejected, with the manager state unchanged,
when the room does not exist, is Closed, is in CharacterCreation or
Active phase, the joining player is already in some room, or the
active-plus-pending count has reached the per-room maximum; when every
check passes and the room is paused, the player is accepted into the
pending map with status Pending, leaving the active map untouched. -/
theorem join_room_admission (m : RoomManager) (room_id player_id : Nat)
    (player_name : List Char) (max_players : Nat) :
    (dlookup room_id m.rooms = none →
      m.join_room room_id player_id player_name max_players
        = (JoinResult.notFound, m)) ∧
    ∀ room, dlookup room_id m.rooms = some room →
      (room.status = RoomStatus.CLOSED →
        m.join_room room_id player_id player_name max_players
          = (JoinResult.closed, m)) ∧
      (room.status = RoomStatus.CHARACTER_CREATION ∨
          room.status = RoomStatus.ACTIVE →
        m.join_room room_id player_id player_name max_players
          = (JoinResult.alreadyStarted, m)) ∧
      (room.status ≠ RoomStatus.CLOSED →
       room.status ≠ RoomStatus.CHARACTER_CREATION →
       room.status ≠ RoomStatus.ACTIVE →
        ((dlookup player_id m.player_room_map).isSome →
          m.join_room room_id player_id player_name max_players
            = (JoinResult.alreadyInRoom, m)) ∧
        (dlookup player_id m.player_room_map = none →
          (room.get_active_player_count + room.pending_players.length ≥
              max_players →
            m.join_room room_id player_id player_name max_players
              = (JoinResult.full, m)) ∧
          (room.get_active_player_count + room.pending_players.length <
              max_players →
           room.paused = true →
            (m.join_room room_id player_id player_name max_players).1
              = JoinResult.joined ∧
            ∃ room',
              dlookup room_id
                  (m.join_room room_id player_id player_name
                    max_players).2.rooms = some room' ∧
              dlookup player_id room'.pending_players =
                some { player_id := player_id, player_name := player_name,
                       status := PlayerStatus.PENDING } ∧
              room'.active_players = room.active_players))) := by
  constructor
  · intro h
    simp [RoomManager.join_room, h]
  · intro room hroom
    refine ⟨?_, ?_, ?_⟩
    · intro hcl
      simp [RoomManager.join_room, hroom, hcl]
    · intro hcs
      have hncl : room.status ≠ RoomStatus.CLOSED := by
        rcases hcs with h | h <;> simp [h]
      simp [RoomManager.join_room, hroom, hncl, hcs]
    · intro hncl hncc hnac
      have hns : ¬(room.status = RoomStatus.CHARACTER_CREATION ∨
          room.status = RoomStatus.ACTIVE) := by
        rintro (h | h)
        · exact hncc h
        · exact hnac h
      constructor
      · intro hsome
        simp [RoomManager.join_room, hroom, hncl, hns, hsome]
      · intro hnone
        constructor
        · intro hfull
          simp [RoomManager.join_room, hroom, hncl, hns, hnone, hfull]
        · intro hlt hp
          have hnfull : ¬(room.get_active_player_count +
              room.pending_players.length ≥ max_players) :=
            Nat.not_le.mpr hlt
          refine ⟨?_, ?_⟩
          · simp [RoomManager.join_room, hroom, hncl, hns, hnone, hnfull, hp]
          · refine ⟨{ room with
                pending_players :=
                  dinsert player_id
                    { player_id := player_id, player_name := player_name,
                      status := PlayerStatus.PENDING } room.pending_players },
              ?_, ?_, rfl⟩
            · simp [RoomManager.join_room, hroom, hncl, hns, hnone, hnfull, hp,
                dlookup_dinsert_self]
            · exact dlookup_dinsert_self _ _ _

/-- A room already in Active phase, used to witness the rejection
branches of C4. -/
def roomC4A : Room :=
  { room_id := 0, room_name := "adv".data, host_id := 0,
    world_setting := "a fantasy world".data, status := RoomStatus.ACTIVE,
    active_players := [(0, { player_id := 0, player_name := "host".data })] }

def mgrC4A : RoomManager :=
  { rooms := [(0, roomC4A)], player_room_map := [(0, 0)], next_room_id := 1 }

/-- A paused room with one active host, used to witness the
paused-admission branch of C4. -/
def roomC4P : Room :=
  { room_id := 0, room_name := "adv".data, host_id := 0,
    world_setting := "a fantasy world".data, status := RoomStatus.PAUSED,
    paused := true,
    active_players := [(0, { player_id := 0, player_name := "host".data })] }

def mgrC4P : RoomManager :=
  { rooms := [(0, roomC4P)], player_room_map := [(0, 0)], next_room_id := 1 }

theorem join_room_admission_witness :
    (mgrC4A.join_room 0 5 "alice".data 8 = (JoinResult.alreadyStarted, mgrC4A)) ∧
    ((mgrC4P.join_room 0 5 "alice".data 8).1 = JoinResult.joined ∧
      ∃ room',
        dlookup 0 (mgrC4P.join_room 0 5 "alice".data 8).2.rooms = some room' ∧
        dlookup 5 room'.pending_players =
          some { player_id := 5, player_name := "alice".data,
                 status := PlayerStatus.PENDING } ∧
        room'.active_players = roomC4P.active_players) := by
  constructor
  · exact (((join_room_admission mgrC4A 0 5 "alice".data 8).2 roomC4A
      rfl).2.1) (Or.inr rfl)
  · exact ((((join_room_admission mgrC4P 0 5 "alice".data 8).2 roomC4P
      rfl).2.2 (by decide) (by decide) (by decide)).2 rfl).2 (by decide) rfl

theorem mem_of_mem_derase {κ α : Type} [DecidableEq κ] {e : κ × α} {k : κ}
    {l : List (κ × α)} (h : e ∈ derase k l) : e ∈ l := by
  induction l with
  | nil => simp [derase] at h
  | cons x t ih =>
    by_cases hx : x.1 = k
    · rw [derase, if_pos hx] at h
      exact List.mem_cons_of_mem x (ih h)
    · rw [derase, if_neg hx, List.mem_cons] at h
      rcases h with h | h
      · exact h ▸ List.mem_cons_self x t
      · exact List.mem_cons_of_mem x (ih h)

/-- Under the key-consistency invariant (the player_id field of every
stored player equals its dict key), the player ids of the stored values
are exactly the keys. -/
theorem dvalues_map_player_id : ∀ {l : List (Nat × Player)},
    (∀ e ∈ l, e.2.player_id = e.1) →
    (dvalues l).map Player.player_id = dkeys l := by
  intro l
  induction l with
  | nil => intro _; rfl
  | cons e t ih =>
    intro h
    have he := h e (List.mem_cons_self e t)
    have ht : ∀ x ∈ t, x.2.player_id = x.1 :=
      fun x hx => h x (List.mem_cons_of_mem e hx)
    show e.2.player_id :: (dvalues t).map Player.player_id = e.1 :: dkeys t
    rw [he, ih ht]

/-- Claim C5: when the creator leaves, the room is unconditionally
closed: the room is deleted from the registry and every member
identity of the room (the creator included) is removed from the
reverse index. -/
theorem creator_leave_closes_room (m : RoomManager) (player_id room_id : Nat)
    (room : Room)
    (h1 : dlookup player_id m.player_room_map = some room_id)
    (h2 : dlookup room_id m.rooms = some room)
    (hhost : room.host_id = player_id)
    (hrid : room.room_id = room_id)
    (hkA : ∀ e ∈ room.active_players, e.2.player_id = e.1)
    (hkP : ∀ e ∈ room.pending_players, e.2.player_id = e.1) :
    (m.leave_room player_id).1 = LeaveResult.hostLeftRoomClosed ∧
    dlookup room_id (m.leave_room player_id).2.rooms = none ∧
    dlookup player_id (m.leave_room player_id).2.player_room_map = none ∧
    ∀ q, q ∈ dkeys room.active_players ∨ q ∈ dkeys room.pending_players →
      dlookup q (m.leave_room player_id).2.player_room_map = none := by
  have hby : m.get_room_by_player player_id = some (room_id, room) := by
    simp [RoomManager.get_room_by_player, h1, h2]
  have hif : player_id = room.host_id := hhost.symm
  set room1 : Room :=
    { room with
      active_players := derase player_id room.active_players,
      pending_players := derase player_id room.pending_players } with hroom1
  set m1 : RoomManager :=
    { m with
      rooms := dinsert room_id room1 m.rooms,
      player_room_map := derase player_id m.player_room_map } with hm1
  have hres : m.leave_room player_id =
      (LeaveResult.hostLeftRoomClosed, (m1.close_room room1.room_id).2) := by
    simp only [RoomManager.leave_room, hby]
    rw [if_pos hif]
  have hrid1 : room1.room_id = room_id := hrid
  have hlook1 : dlookup room_id m1.rooms = some room1 := by
    simp [hm1, dlookup_dinsert_self]
  have hclose : (m1.close_room room1.room_id).2 =
      { m1 with
        rooms := derase room_id m1.rooms,
        player_room_map :=
          room1.get_all_players.foldl
            (fun acc p => derase p.player_id acc) m1.player_room_map } := by
    rw [hrid1]
    simp [RoomManager.close_room, hlook1]
  have hids : room1.get_all_players.map Player.player_id =
      dkeys room1.active_players ++ dkeys room1.pending_players := by
    rw [Room.get_all_players, List.map_append]
    rw [dvalues_map_player_id (fun e he => hkA e (mem_of_mem_derase he)),
      dvalues_map_player_id (fun e he => hkP e (mem_of_mem_derase he))]
  have hmap2 : ∀ q,
      dlookup q (m1.close_room room1.room_id).2.player_room_map =
        if q ∈ dkeys room1.active_players ++ dkeys room1.pending_players then
          none
        else dlookup q m1.player_room_map := by
    intro q
    rw [hclose]
    show dlookup q (room1.get_all_players.foldl
      (fun acc p => derase p.player_id acc) m1.player_room_map) = _
    rw [dlookup_foldl_derase Player.player_id, hids]
  refine ⟨by rw [hres], ?_, ?_, ?_⟩
  · rw [hres, hclose]
    show dlookup room_id (derase room_id m1.rooms) = none
    exact dlookup_derase_self room_id m1.rooms
  · rw [hres, hmap2 player_id]
    have : dlookup player_id m1.player_room_map = none := by
      simp [hm1, dlookup_derase_self]
    by_cases hmem : player_id ∈ dkeys room1.active_players ++
        dkeys room1.pending_players
    · simp [hmem]
    · simp [hmem, this]
  · intro q hq
    rw [hres, hmap2 q]
    by_cases hqp : q = player_id
    · subst hqp
      by_cases hmem : q ∈ dkeys room1.active_players ++
          dkeys room1.pending_players
      · simp [hmem]
      · simp [hmem, hm1, dlookup_derase_self]
    · have hq1 : q ∈ dkeys room1.active_players ++
          dkeys room1.pending_players := by
        rw [List.mem_append]
        rcases hq with hq | hq
        · left
          rw [← dlookup_isSome_iff_mem_dkeys] at hq ⊢
          show (dlookup q (derase player_id room.active_players)).isSome
          rw [dlookup_derase_ne hqp]
          exact hq
        · right
          rw [← dlookup_isSome_iff_mem_dkeys] at hq ⊢
          show (dlookup q (derase player_id room.pending_players)).isSome
          rw [dlookup_derase_ne hqp]
          exact hq
      simp [hq1]

/-- A room whose creator (id 0) has three other active members. -/
def roomC5 : Room :=
  { room_id := 0, room_name := "adv".data, host_id := 0,
    world_setting := "a fantasy world".data, status := RoomStatus.WAITING,
    active_players :=
      [(0, { player_id := 0, player_name := "host".data }),
       (1, { player_id := 1, player_name := "b".data }),
       (2, { player_id := 2, player_name := "c".data }),
       (3, { player_id := 3, player_name := "d".data })] }

def mgrC5 : RoomManager :=
  { rooms := [(0, roomC5)],
    player_room_map := [(0, 0), (1, 0), (2, 0), (3, 0)], next_room_id := 1 }

theorem creator_leave_closes_room_witness :
    (mgrC5.leave_room 0).1 = LeaveResult.hostLeftRoomClosed ∧
    dlookup 0 (mgrC5.leave_room 0).2.rooms = none ∧
    dlookup 0 (mgrC5.leave_room 0).2.player_room_map = none ∧
    dlookup 1 (mgrC5.leave_room 0).2.player_room_map = none ∧
    dlookup 2 (mgrC5.leave_room 0).2.player_room_map = none ∧
    dlookup 3 (mgrC5.leave_room 0).2.player_room_map = none := by
  have h := creator_leave_closes_room mgrC5 0 0 roomC5 rfl rfl rfl rfl
    (by decide) (by decide)
  exact ⟨h.1, h.2.1, h.2.2.1, h.2.2.2 1 (by decide), h.2.2.2 2 (by decide),
    h.2.2.2 3 (by decide)⟩

theorem apply_pending_config_status (r : Room) :
    r.apply_pending_config.status = r.status := by
  cases hc : r.pending_config.timeout <;> simp [Room.apply_pending_config, hc]

theorem apply_pending_config_paused (r : Room) :
    r.apply_pending_config.paused = r.paused := by
  cases hc : r.pending_config.timeout <;> simp [Room.apply_pending_config, hc]

theorem apply_pending_config_active (r : Room) :
    r.apply_pending_config.active_players = r.active_players := by
  cases hc : r.pending_config.timeout <;> simp [Room.apply_pending_config, hc]

theorem apply_pending_config_pending_players (r : Room) :
    r.apply_pending_config.pending_players = r.pending_players := by
  cases hc : r.pending_config.timeout <;> simp [Room.apply_pending_config, hc]

theorem apply_pending_config_current_round (r : Room) :
    r.apply_pending_config.current_round = r.current_round := by
  cases hc : r.pending_config.timeout <;> simp [Room.apply_pending_config, hc]

theorem apply_pending_config_pending_config (r : Room) :
    r.apply_pending_config.pending_config = r.pending_config := by
  cases hc : r.pending_config.timeout <;> simp [Room.apply_pending_config, hc]

/-- The staged override, when present, is written onto the room timeout. -/
theorem apply_pending_config_timeout (r : Room) :
    r.apply_pending_config.timeout = r.pending_config.timeout.getD r.timeout := by
  cases hc : r.pending_config.timeout <;> simp [Room.apply_pending_config, hc]

theorem activate_pending_current_round (r : Room) :
    r.activate_pending_players.current_round = r.current_round := rfl

theorem activate_pending_empty (r : Room) :
    r.activate_pending_players.pending_players = [] := rfl

theorem activate_pending_active (r : Room) :
    r.activate_pending_players.active_players =
      r.pending_players.foldl
        (fun a e => dinsert e.1 { e.2 with status := PlayerStatus.ACTIVE } a)
        r.active_players := rfl

/-- Claim C10: pause_room succeeds for the host in any phase of a
registered, unpaused room (Waiting and CharacterCreation included) and
stores the room with status Paused, recording nothing of the previous
phase; a following resume_room by the host succeeds and always sets the
phase to Active — in particular a room paused while still Waiting
becomes Active on resume with its round counter and players untouched,
character creation never having run. -/
theorem pause_resume_forces_active (m : RoomManager) (room_id player_id : Nat)
    (room : Room)
    (h : dlookup room_id m.rooms = some room)
    (hhost : room.is_host player_id = true)
    (hnp : room.paused = false) :
    (m.pause_room room_id player_id).1 = PauseResult.paused ∧
    dlookup room_id (m.pause_room room_id player_id).2.rooms =
      some { room with paused := true, status := RoomStatus.PAUSED } ∧
    ((m.pause_room room_id player_id).2.resume_room room_id player_id).1 =
      ResumeResult.resumed ∧
    ∃ room2,
      dlookup room_id
          ((m.pause_room room_id player_id).2.resume_room room_id
            player_id).2.rooms = some room2 ∧
      room2.status = RoomStatus.ACTIVE ∧
      room2.paused = false ∧
      room2.current_round = room.current_round ∧
      (room.pending_players = [] →
        room2.active_players = room.active_players) := by
  have hp : m.pause_room room_id player_id =
      (PauseResult.paused,
        { m with
          rooms :=
            dinsert room_id
              { room with paused := true, status := RoomStatus.PAUSED }
              m.rooms }) := by
    simp [RoomManager.pause_room, h, hhost, hnp]
  set room1 : Room := { room with paused := true, status := RoomStatus.PAUSED }
    with hr1
  have hl1 : dlookup room_id (dinsert room_id room1 m.rooms) = some room1 :=
    dlookup_dinsert_self _ _ _
  have hhost1 : room1.is_host player_id = true := hhost
  set room2 : Room :=
    { room1.apply_pending_config.activate_pending_players with
      paused := false, status := RoomStatus.ACTIVE } with hr2
  have hres : ({ m with rooms := dinsert room_id room1 m.rooms } :
      RoomManager).resume_room room_id player_id =
      (ResumeResult.resumed,
        { m with
          rooms := dinsert room_id room2 (dinsert room_id room1 m.rooms) }) := by
    simp [RoomManager.resume_room, hl1, hhost1, hr2]
  refine ⟨by rw [hp], ?_, ?_, ?_⟩
  · rw [hp]
    exact hl1
  · rw [hp, hres]
  · refine ⟨room2, ?_, rfl, rfl, ?_, ?_⟩
    · rw [hp, hres]
      exact dlookup_dinsert_self _ _ _
    · show room1.apply_pending_config.activate_pending_players.current_round =
        room.current_round
      rw [activate_pending_current_round, apply_pending_config_current_round]
    · intro hpe
      show room1.apply_pending_config.activate_pending_players.active_players =
        room.active_players
      rw [activate_pending_active, apply_pending_config_pending_players,
        apply_pending_config_active]
      have : room1.pending_players = room.pending_players := rfl
      rw [this, hpe, List.foldl_nil]

/-- A Waiting-phase room used to witness C10: pausing it and resuming
lands it in Active phase without character creation having run. -/
def roomC10 : Room :=
  { room_id := 0, room_name := "adv".data, host_id := 0,
    world_setting := "a fantasy world".data, status := RoomStatus.WAITING,
    active_players := [(0, { player_id := 0, player_name := "host".data })] }

def mgrC10 : RoomManager :=
  { rooms := [(0, roomC10)], player_room_map := [(0, 0)], next_room_id := 1 }

theorem pause_resume_forces_active_witness :
    (mgrC10.pause_room 0 0).1 = PauseResult.paused ∧
    dlookup 0 (mgrC10.pause_room 0 0).2.rooms =
      some { roomC10 with paused := true, status := RoomStatus.PAUSED } ∧
    ((mgrC10.pause_room 0 0).2.resume_room 0 0).1 = ResumeResult.resumed ∧
    ∃ room2,
      dlookup 0 ((mgrC10.pause_room 0 0).2.resume_room 0 0).2.rooms
        = some room2 ∧
      room2.status = RoomStatus.ACTIVE ∧
      room2.paused = false ∧
      room2.current_round = roomC10.current_round ∧
      (roomC10.pending_players = [] →
        room2.active_players = roomC10.active_players) :=
  pause_resume_forces_active mgrC10 0 0 roomC10 rfl rfl rfl

/-- A paused room with a staged timeout override of 120 seconds and one
pending joiner, for C3. -/
def roomC3 : Room :=
  { room_id := 0, room_name := "adv".data, host_id := 0,
    world_setting := "a fantasy world".data, status := RoomStatus.PAUSED,
    paused := true,
    active_players := [(0, { player_id := 0, player_name := "host".data })],
    pending_players :=
      [(7, { player_id := 7, player_name := "late".data,
             status := PlayerStatus.PENDING })],
    timeout := 300,
    pending_config := { timeout := some 120 } }

def mgrC3 : RoomManager :=
  { rooms := [(0, roomC3)], player_room_map := [(0, 0), (7, 0)],
    next_room_id := 1 }

/-- Counterexample to C3 as stated: resuming applies the staged timeout
override (300 becomes 120) but does not clear the staged configuration;
it is still present after the resume, and a second pause/resume cycle
still finds the staged override in place, contradicting the claim that
the pending configuration is cleared after application. -/
theorem resume_keeps_staged_override :
    (mgrC3.resume_room 0 0).1 = ResumeResult.resumed ∧
    ((dlookup 0 (mgrC3.resume_room 0 0).2.rooms).map Room.timeout
      = some 120) ∧
    ((dlookup 0 (mgrC3.resume_room 0 0).2.rooms).map
        (fun r => r.pending_config.timeout) = some (some 120)) ∧
    ((dlookup 0
        ((((mgrC3.resume_room 0 0).2.pause_room 0 0).2.resume_room 0
          0).2.rooms)).map
        (fun r => r.pending_config.timeout) = some (some 120)) := by
  decide

theorem activate_pending_active_comp (r : Room) :
    r.activate_pending_players.active_players =
      r.pending_players.foldl
        (fun a e =>
          dinsert e.1
            ((fun p => { p with status := PlayerStatus.ACTIVE }) e.2) a)
        r.active_players := rfl

/-- Claim C3 (amended): a successful resume admits every pending player
into the active map with status Active and empties the pending map, and
it applies a staged timeout override; but the staged configuration is
not cleared by resumption — it survives unchanged in the room, so a
later pause/resume cycle still finds (and re-applies) the same staged
override. -/
theorem resume_admits_pending_and_applies_override (m : RoomManager)
    (room_id player_id : Nat) (room : Room)
    (h : dlookup room_id m.rooms = some room)
    (hhost : room.is_host player_id = true)
    (hp : room.paused = true)
    (hnd : (dkeys room.pending_players).Nodup) :
    (m.resume_room room_id player_id).1 = ResumeResult.resumed ∧
    ∃ room',
      dlookup room_id (m.resume_room room_id player_id).2.rooms
        = some room' ∧
      room'.status = RoomStatus.ACTIVE ∧
      room'.paused = false ∧
      room'.pending_players = [] ∧
      (∀ q p, dlookup q room.pending_players = some p →
        dlookup q room'.active_players =
          some { p with status := PlayerStatus.ACTIVE }) ∧
      (∀ q, dlookup q room.pending_players = none →
        dlookup q room'.active_players = dlookup q room.active_players) ∧
      room'.timeout = room.pending_config.timeout.getD room.timeout ∧
      room'.pending_config = room.pending_config := by
  have hres : m.resume_room room_id player_id =
      (ResumeResult.resumed,
        { m with
          rooms :=
            dinsert room_id
              { room.apply_pending_config.activate_pending_players with
                paused := false, status := RoomStatus.ACTIVE } m.rooms }) := by
    simp [RoomManager.resume_room, h, hhost, hp]
  have hpend : room.apply_pending_config.pending_players =
      room.pending_players := apply_pending_config_pending_players room
  have hact : room.apply_pending_config.active_players =
      room.active_players := apply_pending_config_active room
  have hsome : ∀ q p, dlookup q room.pending_players = some p →
      dlookup q
        room.apply_pending_config.activate_pending_players.active_players =
        some { p with status := PlayerStatus.ACTIVE } := by
    intro q p hq
    rw [activate_pending_active_comp, hpend, hact]
    have base := dlookup_foldl_dinsert (k := q)
      (fun p => { p with status := PlayerStatus.ACTIVE }) hnd
      room.active_players
    rw [hq] at base
    exact base
  have hnone : ∀ q, dlookup q room.pending_players = none →
      dlookup q
        room.apply_pending_config.activate_pending_players.active_players =
        dlookup q room.active_players := by
    intro q hq
    rw [activate_pending_active_comp, hpend, hact]
    have base := dlookup_foldl_dinsert (k := q)
      (fun p => { p with status := PlayerStatus.ACTIVE }) hnd
      room.active_players
    rw [hq] at base
    exact base
  refine ⟨by rw [hres], ?_⟩
  refine ⟨{ room.apply_pending_config.activate_pending_players with
    paused := false, status := RoomStatus.ACTIVE }, ?_, rfl, rfl, rfl,
    ?_, ?_, ?_, ?_⟩
  · rw [hres]
    exact dlookup_dinsert_self _ _ _
  · intro q p hq
    exact hsome q p hq
  · intro q hq
    exact hnone q hq
  · show room.apply_pending_config.activate_pending_players.timeout = _
    have : room.apply_pending_config.activate_pending_players.timeout =
        room.apply_pending_config.timeout := rfl
    rw [this, apply_pending_config_timeout]
  · show room.apply_pending_config.activate_pending_players.pending_config = _
    have : room.apply_pending_config.activate_pending_players.pending_config =
        room.apply_pending_config.pending_config := rfl
    rw [this, apply_pending_config_pending_config]

theorem resume_admits_pending_and_applies_override_witness :
    (mgrC3.resume_room 0 0).1 = ResumeResult.resumed ∧
    ∃ room',
      dlookup 0 (mgrC3.resume_room 0 0).2.rooms = some room' ∧
      room'.status = RoomStatus.ACTIVE ∧
      room'.paused = false ∧
      room'.pending_players = [] ∧
      (∀ q p, dlookup q roomC3.pending_players = some p →
        dlookup q room'.active_players =
          some { p with status := PlayerStatus.ACTIVE }) ∧
      (∀ q, dlookup q roomC3.pending_players = none →
        dlookup q room'.active_players = dlookup q roomC3.active_players) ∧
      room'.timeout = roomC3.pending_config.timeout.getD roomC3.timeout ∧
      room'.pending_config = roomC3.pending_config :=
  resume_admits_pending_and_applies_override mgrC3 0 0 roomC3 rfl rfl rfl
    (by decide)

/-- An Active-phase room in round 1 whose single player has acted, with
the round timer registered, for C2 and C1. -/
def roomC2 : Room :=
  { room_id := 0, room_name := "adv".data, host_id := 0,
    world_setting := "a fantasy world".data, status := RoomStatus.ACTIVE,
    active_players :=
      [(0, { player_id := 0, player_name := "alice".data,
             character_name := some "Hero".data,
             character_setting := some "a brave knight".data,
             status := PlayerStatus.ACTED,
             current_action := some "attack".data })],
    timeout := 300, current_round := 1 }

def plgC2 : Plugin :=
  { rm := { rooms := [(0, roomC2)], player_room_map := [(0, 0)],
            next_room_id := 1 },
    timeout_tasks := [(TaskKey.roundOf 0, { task_id := 0, duration := 300 })],
    next_task_id := 1 }

/-- Counterexample to C2 as stated: with a non-empty action set, a
generation-backend failure in the form of an unavailable provider (and
likewise a raising call) aborts the round wholesale — no placeholder
GameRound is appended, the round number stays put, and the round timer
is not restarted; the plugin state is completely unchanged. -/
theorem process_round_no_provider_aborts :
    roomC2.get_round_actions ≠ [] ∧
    process_round plgC2 0 GenOutcome.noProvider = plgC2 ∧
    process_round plgC2 0 GenOutcome.raises = plgC2 ∧
    ((dlookup 0 (process_round plgC2 0 GenOutcome.noProvider).rm.rooms).map
      (fun r => r.history.length) = some 0) ∧
    ((dlookup 0 (process_round plgC2 0 GenOutcome.noProvider).rm.rooms).map
      Room.current_round = some 1) ∧
    (process_round plgC2 0 GenOutcome.noProvider).next_task_id = 1 := by
  decide

/-- Behaviour of _process_round on a registered room with a non-empty
action set, for every backend outcome. -/
theorem process_round_spec (s : Plugin) (room_id : Nat)
    (room : Room)
    (h : dlookup room_id s.rm.rooms = some room)
    (hne : room.get_round_actions ≠ []) :
    process_round s room_id GenOutcome.noProvider = s ∧
    process_round s room_id GenOutcome.raises = s ∧
    ∀ t, ∃ room',
      dlookup room_id
          (process_round s room_id (GenOutcome.resp t)).rm.rooms
        = some room' ∧
      room'.history = room.history ++
        [{ round_number := room.current_round,
           player_actions := room.get_round_actions,
           dm_response := dmResponseOf t }] ∧
      room'.current_round = room.current_round + 1 ∧
      room'.pending_config.correction_text = none ∧
      dlookup (TaskKey.roundOf room_id)
          (process_round s room_id (GenOutcome.resp t)).timeout_tasks
        = some { task_id := s.next_task_id, duration := room'.timeout } ∧
      (process_round s room_id (GenOutcome.resp t)).next_task_id
        = s.next_task_id + 1 := by
  have hpre : process_round_pre room = some room.get_round_actions := by
    simp [process_round_pre, hne]
  refine ⟨?_, ?_, ?_⟩
  · simp [process_round, h, hpre, process_round_finish]
  · simp [process_round, h, hpre, process_round_finish]
  · intro t
    set r1 : Room :=
      { room with
        history :=
          room.history ++
            [{ round_number := room.current_round,
               player_actions := room.get_round_actions,
               dm_response := dmResponseOf t }],
        pending_config :=
          { room.pending_config with correction_text := none } } with hr1def
    have happ : resolve_append s room_id room.get_round_actions t =
        s.setRoom room_id r1 := by
      simp [resolve_append, h, hr1def]
    have hl1 : dlookup room_id (s.setRoom room_id r1).rm.rooms = some r1 := by
      simp [Plugin.setRoom, dlookup_dinsert_self]
    have hadv : resolve_advance (s.setRoom room_id r1) room_id =
        (s.setRoom room_id r1).setRoom room_id r1.start_new_round := by
      simp [resolve_advance, hl1]
    have hl2 : dlookup room_id
        (((s.setRoom room_id r1).setRoom room_id
          r1.start_new_round)).rm.rooms = some r1.start_new_round := by
      simp [Plugin.setRoom, dlookup_dinsert_self]
    have hfin : process_round s room_id (GenOutcome.resp t) =
        ((s.setRoom room_id r1).setRoom room_id
          r1.start_new_round).start_timeout room_id
            r1.start_new_round.timeout := by
      simp only [process_round, h, hpre, process_round_finish, happ, hadv,
        hl2]
    refine ⟨r1.start_new_round, ?_, ?_, ?_, ?_, ?_, ?_⟩
    · rw [hfin]
      exact hl2
    · show r1.history = _
      rw [hr1def]
    · show r1.current_round + 1 = room.current_round + 1
      rw [hr1def]
    · show r1.pending_config.correction_text = none
      rw [hr1def]
    · rw [hfin]
      exact dlookup_dinsert_self _ _ _
    · rw [hfin]
      rfl

/-- Claim C2 (amended): during round resolution with a non-empty action
set, a generation call that completes — even with an empty completion,
for which the neutral placeholder narration is substituted — leads to
the GameRound being appended, the round number incremented and the
round timer restarted; but when no generation provider is available, or
the generation call raises, the round is aborted with the plugin state
unchanged: nothing is appended, the round is not advanced and the
round timer is not restarted. -/
theorem process_round_backend_outcomes (s : Plugin) (room_id : Nat)
    (room : Room)
    (h : dlookup room_id s.rm.rooms = some room)
    (hne : room.get_round_actions ≠ []) :
    process_round s room_id GenOutcome.noProvider = s ∧
    process_round s room_id GenOutcome.raises = s ∧
    ∀ t, ∃ room',
      dlookup room_id
          (process_round s room_id (GenOutcome.resp t)).rm.rooms
        = some room' ∧
      room'.history = room.history ++
        [{ round_number := room.current_round,
           player_actions := room.get_round_actions,
           dm_response := dmResponseOf t }] ∧
      room'.current_round = room.current_round + 1 ∧
      room'.pending_config.correction_text = none ∧
      dlookup (TaskKey.roundOf room_id)
          (process_round s room_id (GenOutcome.resp t)).timeout_tasks
        = some { task_id := s.next_task_id, duration := room'.timeout } ∧
      (process_round s room_id (GenOutcome.resp t)).next_task_id
        = s.next_task_id + 1 :=
  process_round_spec s room_id room h hne

theorem process_round_backend_outcomes_witness :
    process_round plgC2 0 GenOutcome.noProvider = plgC2 ∧
    ∃ room',
      dlookup 0 (process_round plgC2 0 (GenOutcome.resp [])).rm.rooms
        = some room' ∧
      room'.history =
        [{ round_number := 1, player_actions := [("Hero".data, "attack".data)],
           dm_response := placeholderResponse }] ∧
      room'.current_round = 2 := by
  have h := process_round_backend_outcomes plgC2 0 roomC2 rfl (by decide)
  obtain ⟨room', h1, h2, h3, _⟩ := h.2.2 []
  refine ⟨h.1, room', h1, ?_, ?_⟩
  · rw [h2]
    decide
  · rw [h3]
    decide

theorem dvalues_dmapVal {κ α : Type} (f : α → α) (l : List (κ × α)) :
    dvalues (dmapVal f l) = (dvalues l).map f := by
  simp [dvalues, dmapVal, List.map_map]

/-- Marking timeouts changes player statuses only, so the collected
round actions are unaffected. -/
theorem get_round_actions_mark (r : Room) :
    r.mark_round_timeouts.get_round_actions = r.get_round_actions := by
  simp only [Room.get_round_actions, Room.mark_round_timeouts]
  rw [dvalues_dmapVal, List.filterMap_map]
  congr 1
  funext p
  simp only [Function.comp_apply]
  by_cases hp : p.status = PlayerStatus.ACTIVE
  · rw [if_pos hp]
    rfl
  · rw [if_neg hp]

/-- Players whose status is still Active and who therefore hold no
recorded action contribute nothing to the round actions: dropping them
leaves the mapping unchanged. -/
theorem get_round_actions_drop_inactive :
    ∀ (l : List (Nat × Player)),
    (∀ e ∈ l, e.2.status = PlayerStatus.ACTIVE → e.2.current_action = none) →
    (dvalues (l.filter
        (fun e => decide (e.2.status ≠ PlayerStatus.ACTIVE)))).filterMap
      roundActionEntry = (dvalues l).filterMap roundActionEntry := by
  intro l
  induction l with
  | nil => intro _; rfl
  | cons e t ih =>
    intro h
    have ht : ∀ x ∈ t, x.2.status = PlayerStatus.ACTIVE →
        x.2.current_action = none :=
      fun x hx => h x (List.mem_cons_of_mem e hx)
    by_cases hs : e.2.status = PlayerStatus.ACTIVE
    · have hnone : e.2.current_action = none := h e (List.mem_cons_self e t) hs
      have hentry : roundActionEntry e.2 = none := by
        rw [roundActionEntry, hnone]
      rw [List.filter_cons]
      simp only [hs, ne_eq, not_true_eq_false, decide_False, Bool.false_eq_true,
        if_false]
      rw [ih ht]
      show _ = List.filterMap roundActionEntry (e.2 :: dvalues t)
      rw [List.filterMap_cons, hentry]
    · rw [List.filter_cons]
      simp only [hs, ne_eq, not_false_iff, decide_True, if_true]
      show List.filterMap roundActionEntry (e.2 :: dvalues (t.filter _)) =
        List.filterMap roundActionEntry (e.2 :: dvalues t)
      rw [List.filterMap_cons, List.filterMap_cons, ih ht]

/-- Claim C6: when the round timer fires for a registered, unpaused,
Active-phase room, every still-Active player is marked TimedOut (all
other players untouched); if every active player is then TimedOut the
room is closed (deleted from the registry); otherwise the round is
resolved with exactly the recorded actions — players who never acted
(and so hold no recorded action) contribute nothing, so partial
participation resolves on the actions of the players who acted. -/
theorem round_timer_fire_behavior (s : Plugin) (room_id : Nat) (room : Room)
    (h : dlookup room_id s.rm.rooms = some room)
    (hnp : room.paused = false)
    (hact : room.status = RoomStatus.ACTIVE) :
    (∀ q p, dlookup q room.active_players = some p →
      dlookup q room.mark_round_timeouts.active_players =
        some (if p.status = PlayerStatus.ACTIVE then
          { p with status := PlayerStatus.TIMEOUT } else p)) ∧
    (room.mark_round_timeouts.check_all_players_timeout = true →
      ∀ gen, dlookup room_id (round_timer_fire s room_id gen).rm.rooms
        = none) ∧
    (room.mark_round_timeouts.check_all_players_timeout = false →
      room.mark_round_timeouts.get_round_actions = room.get_round_actions ∧
      ((∀ e ∈ room.active_players, e.2.status = PlayerStatus.ACTIVE →
          e.2.current_action = none) →
        Room.get_round_actions
            { room with
              active_players :=
                room.active_players.filter
                  (fun e => decide (e.2.status ≠ PlayerStatus.ACTIVE)) }
          = room.get_round_actions) ∧
      (room.get_round_actions ≠ [] →
        ∀ t, ∃ room',
          dlookup room_id
              (round_timer_fire s room_id (GenOutcome.resp t)).rm.rooms
            = some room' ∧
          room'.history = room.history ++
            [{ round_number := room.current_round,
               player_actions := room.get_round_actions,
               dm_response := dmResponseOf t }] ∧
          room'.current_round = room.current_round + 1)) := by
  refine ⟨?_, ?_, ?_⟩
  · intro q p hq
    show dlookup q (dmapVal
      (fun p => if p.status = PlayerStatus.ACTIVE then
        { p with status := PlayerStatus.TIMEOUT } else p)
      room.active_players) = _
    rw [dlookup_dmapVal, hq]
    rfl
  · intro hall gen
    simp [round_timer_fire, round_timer_fire_pre, h, hnp, hact, hall,
      RoomManager.close_room, Plugin.setRoom, dlookup_dinsert_self,
      dlookup_derase_self]
  · intro hall
    refine ⟨get_round_actions_mark room, ?_, ?_⟩
    · intro hdisc
      exact get_round_actions_drop_inactive room.active_players hdisc
    · intro hne t
      have hprefire : round_timer_fire_pre s room_id =
          (s.setRoom room_id room.mark_round_timeouts,
            some room.get_round_actions) := by
        simp [round_timer_fire_pre, h, hnp, hact, hall, process_round_pre,
          get_round_actions_mark, hne]
      have hfeq : round_timer_fire s room_id (GenOutcome.resp t) =
          process_round_finish (s.setRoom room_id room.mark_round_timeouts)
            room_id room.get_round_actions (GenOutcome.resp t) := by
        rw [round_timer_fire, hprefire]
      have hs' : dlookup room_id
          (s.setRoom room_id room.mark_round_timeouts).rm.rooms =
          some room.mark_round_timeouts := by
        simp [Plugin.setRoom, dlookup_dinsert_self]
      have hne' : room.mark_round_timeouts.get_round_actions ≠ [] := by
        rw [get_round_actions_mark]
        exact hne
      have hpr : process_round (s.setRoom room_id room.mark_round_timeouts)
          room_id (GenOutcome.resp t) =
          process_round_finish (s.setRoom room_id room.mark_round_timeouts)
            room_id room.get_round_actions (GenOutcome.resp t) := by
        simp only [process_round, hs', process_round_pre,
          get_round_actions_mark]
        rw [if_neg hne]
      obtain ⟨room', hr1, hr2, hr3, _⟩ :=
        (process_round_spec (s.setRoom room_id room.mark_round_timeouts)
          room_id room.mark_round_timeouts hs' hne').2.2 t
      rw [get_round_actions_mark] at hr2
      refine ⟨room', ?_, ?_, ?_⟩
      · rw [hfeq, ← hpr]
        exact hr1
      · exact hr2
      · exact hr3

/-- The C6 scenario room: two active players, Ann has acted, bob never
acts; round 1 with a 30-second round timeout. -/
def roomC6 : Room :=
  { room_id := 0, room_name := "adv".data, host_id := 0,
    world_setting := "a fantasy world".data, status := RoomStatus.ACTIVE,
    active_players :=
      [(0, { player_id := 0, player_name := "alice".data,
             character_name := some "Ann".data,
             status := PlayerStatus.ACTED,
             current_action := some "charge".data }),
       (1, { player_id := 1, player_name := "bob".data })],
    timeout := 30, current_round := 1 }

def plgC6 : Plugin :=
  { rm := { rooms := [(0, roomC6)], player_room_map := [(0, 0), (1, 0)],
            next_room_id := 1 },
    timeout_tasks := [(TaskKey.roundOf 0, { task_id := 0, duration := 30 })],
    next_task_id := 1 }

theorem round_timer_fire_behavior_witness :
    dlookup 1 roomC6.mark_round_timeouts.active_players =
      some { player_id := 1, player_name := "bob".data,
             status := PlayerStatus.TIMEOUT } ∧
    ∃ room',
      dlookup 0
          (round_timer_fire plgC6 0 (GenOutcome.resp "story".data)).rm.rooms
        = some room' ∧
      room'.history =
        [{ round_number := 1,
           player_actions := [("Ann".data, "charge".data)],
           dm_response := "story".data }] ∧
      room'.current_round = 2 := by
  have h := round_timer_fire_behavior plgC6 0 roomC6 rfl rfl rfl
  constructor
  · have hm := h.1 1 { player_id := 1, player_name := "bob".data } rfl
    exact hm
  · obtain ⟨room', h1, h2, hcr⟩ := (h.2.2 (by decide)).2.2 (by decide)
      "story".data
    refine ⟨room', h1, ?_, hcr⟩
    rw [h2]
    decide

/-- Claim C7: when the character-creation timer fires for a registered
room still in CharacterCreation phase, every player still in
CreatingCharacter status is assigned a default character (their own
player name plus the default setting) and marked CharacterDone, and
the game-start sequence then runs unconditionally: the room enters
Active phase, the round counter advances to round one, the defaulted
characters persist on the players (whose statuses are reset to Active
for the new round) and the round timer is started. -/
theorem char_timer_defaults_and_starts (s : Plugin) (room_id : Nat)
    (room : Room)
    (h : dlookup room_id s.rm.rooms = some room)
    (hcc : room.status = RoomStatus.CHARACTER_CREATION) :
    (∀ q p, dlookup q room.active_players = some p →
      dlookup q room.mark_default_characters.active_players =
        some (if p.status = PlayerStatus.CREATING_CHAR then
          { p with character_name := some p.player_name,
                   character_setting := some defaultCharacterSetting,
                   status := PlayerStatus.CHAR_DONE } else p)) ∧
    ∃ room',
      dlookup room_id (char_timer_fire s room_id).rm.rooms = some room' ∧
      room'.status = RoomStatus.ACTIVE ∧
      room'.current_round = room.current_round + 1 ∧
      (∀ q p, dlookup q room.active_players = some p →
        p.status = PlayerStatus.CREATING_CHAR →
        dlookup q room'.active_players =
          some { p with
                 character_name := some p.player_name,
                 character_setting := some defaultCharacterSetting,
                 status := PlayerStatus.ACTIVE,
                 current_action := none }) ∧
      dlookup (TaskKey.roundOf room_id)
          (char_timer_fire s room_id).timeout_tasks
        = some { task_id := s.next_task_id, duration := room'.timeout } ∧
      (char_timer_fire s room_id).next_task_id = s.next_task_id + 1 := by
  have hmark : ∀ q p, dlookup q room.active_players = some p →
      dlookup q room.mark_default_characters.active_players =
        some (if p.status = PlayerStatus.CREATING_CHAR then
          { p with character_name := some p.player_name,
                   character_setting := some defaultCharacterSetting,
                   status := PlayerStatus.CHAR_DONE } else p) := by
    intro q p hq
    show dlookup q (dmapVal
      (fun p => if p.status = PlayerStatus.CREATING_CHAR then
        { p with character_name := some p.player_name,
                 character_setting := some defaultCharacterSetting,
                 status := PlayerStatus.CHAR_DONE } else p)
      room.active_players) = _
    rw [dlookup_dmapVal, hq]
    rfl
  have hfe : char_timer_fire s room_id =
      start_game_after_characters
        (s.setRoom room_id room.mark_default_characters) room_id := by
    simp [char_timer_fire, h, hcc]
  have hs' : dlookup room_id
      (s.setRoom room_id room.mark_default_characters).rm.rooms =
      some room.mark_default_characters := by
    simp [Plugin.setRoom, dlookup_dinsert_self]
  set r2 : Room :=
    ({ room.mark_default_characters with status := RoomStatus.ACTIVE } :
      Room).start_new_round with hr2
  have hsg : start_game_after_characters
      (s.setRoom room_id room.mark_default_characters) room_id =
      ((s.setRoom room_id room.mark_default_characters).setRoom room_id
        r2).start_timeout room_id r2.timeout := by
    simp [start_game_after_characters, hs', hr2]
  refine ⟨hmark, r2, ?_, rfl, rfl, ?_, ?_, ?_⟩
  · rw [hfe, hsg]
    show dlookup room_id
      (((s.setRoom room_id room.mark_default_characters).setRoom room_id
        r2)).rm.rooms = some r2
    simp [Plugin.setRoom, dlookup_dinsert_self]
  · intro q p hq hcr
    have h1 := hmark q p hq
    rw [if_pos hcr] at h1
    show dlookup q (dmapVal Player.reset_for_new_round
      room.mark_default_characters.active_players) = _
    rw [dlookup_dmapVal, h1]
    rfl
  · rw [hfe, hsg]
    exact dlookup_dinsert_self _ _ _
  · rw [hfe, hsg]
    rfl

/-- A CharacterCreation-phase room in which no player has completed a
character manually. -/
def roomC7 : Room :=
  { room_id := 0, room_name := "adv".data, host_id := 0,
    world_setting := "a fantasy world".data,
    status := RoomStatus.CHARACTER_CREATION,
    active_players :=
      [(0, { player_id := 0, player_name := "alice".data,
             status := PlayerStatus.CREATING_CHAR }),
       (1, { player_id := 1, player_name := "bob".data,
             status := PlayerStatus.CREATING_CHAR })],
    char_creation_timeout := 180, current_round := 0 }

def plgC7 : Plugin :=
  { rm := { rooms := [(0, roomC7)], player_room_map := [(0, 0), (1, 0)],
            next_room_id := 1 },
    timeout_tasks := [(TaskKey.charOf 0, { task_id := 0, duration := 180 })],
    next_task_id := 1 }

theorem char_timer_defaults_and_starts_witness :
    ∃ room',
      dlookup 0 (char_timer_fire plgC7 0).rm.rooms = some room' ∧
      room'.status = RoomStatus.ACTIVE ∧
      room'.current_round = 1 ∧
      dlookup 0 room'.active_players =
        some ({ player_id := 0, player_name := "alice".data,
                character_name := some "alice".data,
                character_setting := some defaultCharacterSetting,
                status := PlayerStatus.ACTIVE } : Player) ∧
      dlookup (TaskKey.roundOf 0) (char_timer_fire plgC7 0).timeout_tasks
        = some { task_id := 1, duration := room'.timeout } ∧
      (char_timer_fire plgC7 0).next_task_id = 2 := by
  obtain ⟨hmark, room', h1, h2, h3, h4, h5, h6⟩ :=
    char_timer_defaults_and_starts plgC7 0 roomC7 rfl rfl
  refine ⟨room', h1, h2, h3, ?_, h5, h6⟩
  exact h4 0
    { player_id := 0, player_name := "alice".data,
      status := PlayerStatus.CREATING_CHAR } rfl rfl

/-- An Active-phase room in round 1 with one active player who has not
yet acted, its round timer (task 0) running. -/
def roomC1 : Room :=
  { room_id := 0, room_name := "adv".data, host_id := 0,
    world_setting := "a fantasy world".data, status := RoomStatus.ACTIVE,
    active_players :=
      [(0, { player_id := 0, player_name := "alice".data,
             character_name := some "Hero".data,
             character_setting := some "a brave knight".data })],
    timeout := 300, current_round := 1 }

def plgC1 : Plugin :=
  { rm := { rooms := [(0, roomC1)], player_room_map := [(0, 0)],
            next_room_id := 1 },
    timeout_tasks := [(TaskKey.roundOf 0, { task_id := 0, duration := 300 })],
    next_task_id := 1 }

def c1Actions : List (List Char × List Char) :=
  [("Hero".data, "attack".data)]

/-- Interleaving schedule for the round-resolution race, each step one
atomic section between awaits of the source:
step 1 - the last player submits the action; cmd_act records it, sees
check_all_players_acted and enters _process_round (resolution R1),
which collects the actions and suspends at its provider/generation
awaits (main.py lines 1060-1067, 1314-1336); nothing on this path has
cancelled the round timer;
step 2 - the round-timer sleep elapses during that await; the callback
re-checks the room (Active, not paused), marks nobody (the player is
Acted, so the timeout broadcast is skipped and no await occurs), sees
not-all-timed-out, and enters _process_round itself (resolution R2),
which collects the same actions and suspends at its own awaits (main.py
lines 1403-1420, 1314-1336);
step 3 - the generation call of R2 returns; R2 appends its GameHistory
record for round 1 and suspends at the result broadcast (main.py lines
1339-1354);
step 4 - the generation call of R1 returns; R1 appends a second
GameHistory record, still for round 1 (same lines). -/
def c1AfterStep1 : Plugin := (cmd_act_record plgC1 0 "attack".data).1

def c1AfterStep2 : Plugin := (round_timer_fire_pre c1AfterStep1 0).1

def c1AfterStep3 : Plugin :=
  resolve_append c1AfterStep2 0 c1Actions "storyB".data

def c1AfterStep4 : Plugin :=
  resolve_append c1AfterStep3 0 c1Actions "storyA".data

/-- Claim C1 fails on the code: _process_round never cancels the round
timer before its awaits, so in the schedule above the last-player
resolution and the round-timer resolution both run to their append
sections, and the round-1 history receives two GameHistory records for
the same single set of actions — two resolutions for one round, where
the claim requires exactly one and a timer cancellation as part of
resolution. The conjuncts check, in order: the act path triggers
resolution; at its suspension point the original round-timer task
(task 0) is still registered, uncancelled; the timer callback also
reaches resolution with the same actions; and after both appends the
history holds two round-1 records. -/
theorem double_resolution_in_timer_race :
    (cmd_act_record plgC1 0 "attack".data).2 = some 0 ∧
    ((dlookup 0 c1AfterStep1.rm.rooms).map process_round_pre
      = some (some c1Actions)) ∧
    dlookup (TaskKey.roundOf 0) c1AfterStep1.timeout_tasks
      = some { task_id := 0, duration := 300 } ∧
    (round_timer_fire_pre c1AfterStep1 0).2 = some c1Actions ∧
    ((dlookup 0 c1AfterStep4.rm.rooms).map Room.history
      = some
        [{ round_number := 1, player_actions := c1Actions,
           dm_response := "storyB".data },
         { round_number := 1, player_actions := c1Actions,
           dm_response := "storyA".data }]) := by
  decide

/-! ## Registry invariant (C8) -/

/-- One registry operation, as dispatched by the command handlers
(create, join, leave, close, pause, resume). -/
inductive RegOp
  | create (host_id : Nat) (host_name room_name world_setting : List Char)
      (timeout char_timeout : Nat)
  | join (room_id player_id : Nat) (player_name : List Char)
      (max_players : Nat)
  | leave (player_id : Nat)
  | close (room_id : Nat)
  | pause (room_id player_id : Nat)
  | resume (room_id player_id : Nat)
deriving DecidableEq, Repr

/-- Apply one registry operation, discarding the reply. -/
def RoomManager.applyOp (m : RoomManager) : RegOp → RoomManager
  | RegOp.create h hn rn ws t ct => (m.create_room h hn rn ws t ct).2
  | RegOp.join rid pid pn mx => (m.join_room rid pid pn mx).2
  | RegOp.leave pid => (m.leave_room pid).2
  | RegOp.close rid => (m.close_room rid).2
  | RegOp.pause rid pid => (m.pause_room rid pid).2
  | RegOp.resume rid pid => (m.resume_room rid pid).2

def runRegOps (ops : List RegOp) (m : RoomManager) : RoomManager :=
  ops.foldl RoomManager.applyOp m

/-- Membership of a player identity in a room: present in the active or
the pending map. -/
def Room.memberOf (p : Nat) (r : Room) : Prop :=
  (dlookup p r.active_players).isSome ∨ (dlookup p r.pending_players).isSome

/-- Structural well-formedness of one registered room: its stored id
matches its registry key, its two player maps have unique keys, every
stored player carries its key as player_id, and the active and pending
identity sets are disjoint. -/
def RoomWF (rid : Nat) (r : Room) : Prop :=
  r.room_id = rid ∧
  (dkeys r.active_players).Nodup ∧
  (dkeys r.pending_players).Nodup ∧
  (∀ e ∈ r.active_players, e.2.player_id = e.1) ∧
  (∀ e ∈ r.pending_players, e.2.player_id = e.1) ∧
  (∀ p, (dlookup p r.active_players).isSome →
    dlookup p r.pending_players = none)

/-- The reverse index maps exactly the union of all rooms' memberships. -/
def Exact (m : RoomManager) : Prop :=
  ∀ p rid, dlookup p m.player_room_map = some rid ↔
    ∃ r, dlookup rid m.rooms = some r ∧ Room.memberOf p r

/-- The fresh-id counter dominates every registered room id. -/
def Fresh (m : RoomManager) : Prop :=
  ∀ rid, (dlookup rid m.rooms).isSome → rid < m.next_room_id

def ManagerWF (m : RoomManager) : Prop :=
  Exact m ∧ (∀ rid r, dlookup rid m.rooms = some r → RoomWF rid r) ∧ Fresh m

/-- The invariant claimed by the specification: per-room disjointness of
active and pending identity sets, plus exactness of the reverse index. -/
def RegistryInvariant (m : RoomManager) : Prop :=
  (∀ rid r, dlookup rid m.rooms = some r →
    ∀ p, (dlookup p r.active_players).isSome →
      dlookup p r.pending_players = none) ∧
  Exact m

theorem memberOf_unique {m : RoomManager} (hE : Exact m) {p rid rid' : Nat}
    {r r' : Room} (h1 : dlookup rid m.rooms = some r) (hm1 : Room.memberOf p r)
    (h2 : dlookup rid' m.rooms = some r') (hm2 : Room.memberOf p r') :
    rid = rid' := by
  have e1 : dlookup p m.player_room_map = some rid :=
    (hE p rid).mpr ⟨r, h1, hm1⟩
  have e2 : dlookup p m.player_room_map = some rid' :=
    (hE p rid').mpr ⟨r', h2, hm2⟩
  rw [e1] at e2
  exact Option.some.inj e2

theorem entries_foldl_dinsert {κ α : Type} [DecidableEq κ] (f : α → α)
    (Q : κ × α → Prop) :
    ∀ (p acc : List (κ × α)), (∀ e ∈ acc, Q e) →
    (∀ e ∈ p, Q (e.1, f e.2)) →
    ∀ e ∈ p.foldl (fun a e => dinsert e.1 (f e.2) a) acc, Q e := by
  intro p
  induction p with
  | nil =>
    intro acc hacc _ e he
    exact hacc e he
  | cons x t ih =>
    intro acc hacc hp e he
    refine ih (dinsert x.1 (f x.2) acc) ?_
      (fun y hy => hp y (List.mem_cons_of_mem x hy)) e he
    intro y hy
    rw [dinsert] at hy
    rcases List.mem_append.mp hy with hy | hy
    · exact hacc y (mem_of_mem_derase hy)
    · rw [List.mem_singleton] at hy
      subst hy
      exact hp x (List.mem_cons_self x t)

theorem activate_lookup_some {room : Room}
    (hnd : (dkeys room.pending_players).Nodup) {q : Nat} {p : Player}
    (hq : dlookup q room.pending_players = some p) :
    dlookup q room.activate_pending_players.active_players =
      some { p with status := PlayerStatus.ACTIVE } := by
  rw [show room.activate_pending_players.active_players =
    room.pending_players.foldl
      (fun a e =>
        dinsert e.1 ((fun p => { p with status := PlayerStatus.ACTIVE }) e.2) a)
      room.active_players from rfl]
  have base := dlookup_foldl_dinsert (k := q)
    (fun p => { p with status := PlayerStatus.ACTIVE }) hnd
    room.active_players
  rw [hq] at base
  exact base

theorem activate_lookup_none {room : Room}
    (hnd : (dkeys room.pending_players).Nodup) {q : Nat}
    (hq : dlookup q room.pending_players = none) :
    dlookup q room.activate_pending_players.active_players =
      dlookup q room.active_players := by
  rw [show room.activate_pending_players.active_players =
    room.pending_players.foldl
      (fun a e =>
        dinsert e.1 ((fun p => { p with status := PlayerStatus.ACTIVE }) e.2) a)
      room.active_players from rfl]
  have base := dlookup_foldl_dinsert (k := q)
    (fun p => { p with status := PlayerStatus.ACTIVE }) hnd
    room.active_players
  rw [hq] at base
  exact base

theorem apply_pending_config_room_id (r : Room) :
    r.apply_pending_config.room_id = r.room_id := by
  cases hc : r.pending_config.timeout <;> simp [Room.apply_pending_config, hc]

/-- Replacing a registered room by a membership-equivalent well-formed
room preserves manager well-formedness. -/
theorem update_room_WF {m : RoomManager} (h : ManagerWF m) {rid : Nat}
    {room room' : Room}
    (hc : dlookup rid m.rooms = some room)
    (hmem : ∀ p, Room.memberOf p room' ↔ Room.memberOf p room)
    (hwf : RoomWF rid room → RoomWF rid room') :
    ManagerWF { m with rooms := dinsert rid room' m.rooms } := by
  obtain ⟨hE, hR, hF⟩ := h
  refine ⟨?_, ?_, ?_⟩
  · intro p rid'
    show dlookup p m.player_room_map = some rid' ↔
      ∃ r, dlookup rid' (dinsert rid room' m.rooms) = some r ∧
        Room.memberOf p r
    by_cases hr : rid' = rid
    · subst hr
      constructor
      · intro hl
        obtain ⟨r, hrr, hm⟩ := (hE p rid').mp hl
        rw [hc] at hrr
        cases hrr
        exact ⟨room', dlookup_dinsert_self _ _ _, (hmem p).mpr hm⟩
      · rintro ⟨r, hrr, hm⟩
        rw [dlookup_dinsert_self] at hrr
        cases hrr
        exact (hE p rid').mpr ⟨room, hc, (hmem p).mp hm⟩
    · constructor
      · intro hl
        obtain ⟨r, hrr, hm⟩ := (hE p rid').mp hl
        refine ⟨r, ?_, hm⟩
        rw [dlookup_dinsert_ne hr]
        exact hrr
      · rintro ⟨r, hrr, hm⟩
        rw [dlookup_dinsert_ne hr] at hrr
        exact (hE p rid').mpr ⟨r, hrr, hm⟩
  · intro rid' r hrr
    show RoomWF rid' r
    by_cases hr : rid' = rid
    · subst hr
      rw [show dlookup rid' ({ m with rooms := dinsert rid' room' m.rooms } :
        RoomManager).rooms = some room' from dlookup_dinsert_self _ _ _] at hrr
      cases hrr
      exact hwf (hR rid' room hc)
    · rw [show dlookup rid' ({ m with rooms := dinsert rid room' m.rooms } :
        RoomManager).rooms = dlookup rid' m.rooms from
        dlookup_dinsert_ne hr _ _] at hrr
      exact hR rid' r hrr
  · intro rid' hs
    by_cases hr : rid' = rid
    · subst hr
      exact hF rid' (by rw [hc]; rfl)
    · rw [show dlookup rid' ({ m with rooms := dinsert rid room' m.rooms } :
        RoomManager).rooms = dlookup rid' m.rooms from
        dlookup_dinsert_ne hr _ _] at hs
      exact hF rid' hs

theorem pause_room_WF {m : RoomManager} (h : ManagerWF m) (rid pid : Nat) :
    ManagerWF (m.pause_room rid pid).2 := by
  rcases hc : dlookup rid m.rooms with _ | room
  · have he : (m.pause_room rid pid).2 = m := by
      simp [RoomManager.pause_room, hc]
    rw [he]
    exact h
  · cases hh : room.is_host pid with
    | false =>
      have he : (m.pause_room rid pid).2 = m := by
        simp [RoomManager.pause_room, hc, hh]
      rw [he]
      exact h
    | true =>
      cases hb : room.paused with
      | true =>
        have he : (m.pause_room rid pid).2 = m := by
          simp [RoomManager.pause_room, hc, hh, hb]
        rw [he]
        exact h
      | false =>
        have he : (m.pause_room rid pid).2 =
            { m with
              rooms :=
                dinsert rid
                  { room with paused := true, status := RoomStatus.PAUSED }
                  m.rooms } := by
          simp [RoomManager.pause_room, hc, hh, hb]
        rw [he]
        exact update_room_WF h hc (fun p => Iff.rfl) (fun hwf => hwf)

theorem resume_room_WF {m : RoomManager} (h : ManagerWF m) (rid pid : Nat) :
    ManagerWF (m.resume_room rid pid).2 := by
  rcases hc : dlookup rid m.rooms with _ | room
  · have he : (m.resume_room rid pid).2 = m := by
      simp [RoomManager.resume_room, hc]
    rw [he]
    exact h
  · cases hh : room.is_host pid with
    | false =>
      have he : (m.resume_room rid pid).2 = m := by
        simp [RoomManager.resume_room, hc, hh]
      rw [he]
      exact h
    | true =>
      cases hb : room.paused with
      | false =>
        have he : (m.resume_room rid pid).2 = m := by
          simp [RoomManager.resume_room, hc, hh, hb]
        rw [he]
        exact h
      | true =>
        have he : (m.resume_room rid pid).2 =
            { m with
              rooms :=
                dinsert rid
                  { room.apply_pending_config.activate_pending_players with
                    paused := false, status := RoomStatus.ACTIVE }
                  m.rooms } := by
          simp [RoomManager.resume_room, hc, hh, hb]
        rw [he]
        obtain ⟨hid, hndA, hndP, hkA, hkP, hdisj⟩ := h.2.1 rid room hc
        have hndA' : (dkeys room.apply_pending_config.active_players).Nodup := by
          rw [apply_pending_config_active]
          exact hndA
        have hndP' : (dkeys room.apply_pending_config.pending_players).Nodup := by
          rw [apply_pending_config_pending_players]
          exact hndP
        refine update_room_WF h hc ?_ ?_
        · intro p
          show ((dlookup p
              room.apply_pending_config.activate_pending_players.active_players).isSome ∨
              (dlookup p ([] : List (Nat × Player))).isSome) ↔
            Room.memberOf p room
          rw [Room.memberOf]
          cases hq : dlookup p room.pending_players with
          | some v =>
            have hq' : dlookup p room.apply_pending_config.pending_players
                = some v := by
              rw [apply_pending_config_pending_players]
              exact hq
            rw [activate_lookup_some hndP' hq']
            simp [hq]
          | none =>
            have hq' : dlookup p room.apply_pending_config.pending_players
                = none := by
              rw [apply_pending_config_pending_players]
              exact hq
            rw [activate_lookup_none hndP' hq', apply_pending_config_active]
            simp [hq, dlookup]
        · intro _
          refine ⟨?_, ?_, ?_, ?_, ?_, ?_⟩
          · show room.apply_pending_config.room_id = rid
            rw [apply_pending_config_room_id]
            exact hid
          · show (dkeys
              room.apply_pending_config.activate_pending_players.active_players).Nodup
            rw [activate_pending_active_comp room.apply_pending_config]
            exact dkeys_nodup_foldl_dinsert
              (fun p => { p with status := PlayerStatus.ACTIVE })
              room.apply_pending_config.pending_players hndA'
          · exact List.nodup_nil
          · show ∀ e ∈
              room.apply_pending_config.activate_pending_players.active_players,
              e.2.player_id = e.1
            rw [activate_pending_active_comp room.apply_pending_config]
            refine entries_foldl_dinsert
              (fun p => { p with status := PlayerStatus.ACTIVE })
              (fun e => e.2.player_id = e.1)
              room.apply_pending_config.pending_players
              room.apply_pending_config.active_players ?_ ?_
            · intro e he
              rw [apply_pending_config_active] at he
              exact hkA e he
            · intro e he
              rw [apply_pending_config_pending_players] at he
              exact hkP e he
          · intro e he
            exact absurd he (List.not_mem_nil e)
          · intro p _
            rfl

theorem create_room_WF {m : RoomManager} (h : ManagerWF m) (host_id : Nat)
    (hn rn ws : List Char) (t ct : Nat) :
    ManagerWF (m.create_room host_id hn rn ws t ct).2 := by
  obtain ⟨hE, hR, hF⟩ := h
  by_cases hg : ¬m.can_create_room ∨ (dlookup host_id m.player_room_map).isSome
  · have he : (m.create_room host_id hn rn ws t ct).2 = m := by
      rw [RoomManager.create_room, if_pos hg]
    rw [he]
    exact ⟨hE, hR, hF⟩
  · have hnotin : dlookup host_id m.player_room_map = none :=
      Option.not_isSome_iff_eq_none.mp (not_or.mp hg).2
    set rid0 := m.next_room_id with hrid0
    set hostP : Player := { player_id := host_id, player_name := hn }
      with hhostP
    set room0 : Room :=
      { room_id := rid0, room_name := rn, host_id := host_id,
        world_setting := ws, timeout := t, char_creation_timeout := ct,
        active_players := [(host_id, hostP)] } with hroom0
    have he : (m.create_room host_id hn rn ws t ct).2 =
        { m with
          rooms := dinsert rid0 room0 m.rooms,
          player_room_map := dinsert host_id rid0 m.player_room_map,
          next_room_id := rid0 + 1 } := by
      rw [RoomManager.create_room, if_neg hg]
    rw [he]
    have hmem0 : ∀ p, p ≠ host_id → ¬Room.memberOf p room0 := by
      intro p hp hm
      rcases hm with hm | hm
      · have hnone : dlookup p room0.active_players = none := by
          show dlookup p [(host_id, hostP)] = none
          rw [dlookup, if_neg (fun hcc => hp hcc.symm)]
          rfl
        rw [hnone] at hm
        simp at hm
      · have hnone : dlookup p room0.pending_players = none := rfl
        rw [hnone] at hm
        simp at hm
    refine ⟨?_, ?_, ?_⟩
    · intro p rid'
      show dlookup p (dinsert host_id rid0 m.player_room_map) = some rid' ↔
        ∃ r, dlookup rid' (dinsert rid0 room0 m.rooms) = some r ∧
          Room.memberOf p r
      by_cases hp : p = host_id
      · subst hp
        rw [dlookup_dinsert_self]
        constructor
        · intro hs
          have hq : rid' = rid0 := (Option.some.inj hs).symm
          subst hq
          refine ⟨room0, dlookup_dinsert_self _ _ _, Or.inl ?_⟩
          show (dlookup p [(p, hostP)]).isSome
          rw [dlookup, if_pos rfl]
          rfl
        · rintro ⟨r, hrr, hm⟩
          by_cases hr : rid' = rid0
          · subst hr
            rfl
          · rw [dlookup_dinsert_ne hr] at hrr
            have := (hE p rid').mpr ⟨r, hrr, hm⟩
            rw [hnotin] at this
            cases this
      · rw [dlookup_dinsert_ne hp]
        constructor
        · intro hl
          obtain ⟨r, hrr, hm⟩ := (hE p rid').mp hl
          have hrne : rid' ≠ rid0 := by
            intro hcontra
            subst hcontra
            exact absurd (hF rid0 (by rw [hrr]; rfl)) (lt_irrefl rid0)
          refine ⟨r, ?_, hm⟩
          rw [dlookup_dinsert_ne hrne]
          exact hrr
        · rintro ⟨r, hrr, hm⟩
          by_cases hr : rid' = rid0
          · subst hr
            rw [dlookup_dinsert_self] at hrr
            cases hrr
            exact absurd hm (hmem0 p hp)
          · rw [dlookup_dinsert_ne hr] at hrr
            exact (hE p rid').mpr ⟨r, hrr, hm⟩
    · intro rid' r hrr
      have hrr' : dlookup rid' (dinsert rid0 room0 m.rooms) = some r := hrr
      by_cases hr : rid' = rid0
      · subst hr
        rw [dlookup_dinsert_self] at hrr'
        cases hrr'
        refine ⟨rfl, ?_, ?_, ?_, ?_, ?_⟩
        · show ([(host_id, hostP)].map Prod.fst).Nodup
          simp
        · exact List.nodup_nil
        · intro e he
          rw [show room0.active_players = [(host_id, hostP)] from rfl,
            List.mem_singleton] at he
          subst he
          rfl
        · intro e he
          exact absurd he (List.not_mem_nil e)
        · intro p _
          rfl
      · rw [dlookup_dinsert_ne hr] at hrr'
        exact hR rid' r hrr'
    · intro rid' hs
      show rid' < rid0 + 1
      by_cases hr : rid' = rid0
      · subst hr
        exact Nat.lt_succ_self rid0
      · have hs' : (dlookup rid' (dinsert rid0 room0 m.rooms)).isSome := hs
        rw [dlookup_dinsert_ne hr] at hs'
        exact Nat.lt_succ_of_lt (hF rid' hs')

theorem close_room_WF {m : RoomManager} (h : ManagerWF m) (rid : Nat) :
    ManagerWF (m.close_room rid).2 := by
  obtain ⟨hE, hR, hF⟩ := h
  rcases hc : dlookup rid m.rooms with _ | room
  · have he : (m.close_room rid).2 = m := by
      simp [RoomManager.close_room, hc]
    rw [he]
    exact ⟨hE, hR, hF⟩
  · obtain ⟨hid, hndA, hndP, hkA, hkP, hdisj⟩ := hR rid room hc
    have he : (m.close_room rid).2 =
        { m with
          rooms := derase rid m.rooms,
          player_room_map :=
            room.get_all_players.foldl
              (fun acc p => derase p.player_id acc) m.player_room_map } := by
      simp [RoomManager.close_room, hc]
    rw [he]
    have hids : room.get_all_players.map Player.player_id =
        dkeys room.active_players ++ dkeys room.pending_players := by
      rw [Room.get_all_players, List.map_append, dvalues_map_player_id hkA,
        dvalues_map_player_id hkP]
    have hmap : ∀ q,
        dlookup q (room.get_all_players.foldl
          (fun acc p => derase p.player_id acc) m.player_room_map) =
        if q ∈ dkeys room.active_players ++ dkeys room.pending_players then
          none
        else dlookup q m.player_room_map := by
      intro q
      rw [dlookup_foldl_derase Player.player_id, hids]
    have hmemids : ∀ q,
        (q ∈ dkeys room.active_players ++ dkeys room.pending_players) ↔
          Room.memberOf q room := by
      intro q
      rw [List.mem_append, Room.memberOf, dlookup_isSome_iff_mem_dkeys,
        dlookup_isSome_iff_mem_dkeys]
    refine ⟨?_, ?_, ?_⟩
    · intro p rid'
      show dlookup p (room.get_all_players.foldl
          (fun acc p => derase p.player_id acc) m.player_room_map)
        = some rid' ↔
        ∃ r, dlookup rid' (derase rid m.rooms) = some r ∧ Room.memberOf p r
      rw [hmap p]
      by_cases hq : p ∈ dkeys room.active_players ++ dkeys room.pending_players
      · rw [if_pos hq]
        constructor
        · intro hcontra
          cases hcontra
        · rintro ⟨r, hrr, hm⟩
          have hrne : rid' ≠ rid := by
            intro hcc
            subst hcc
            rw [dlookup_derase_self] at hrr
            cases hrr
          rw [dlookup_derase_ne hrne] at hrr
          have hm0 : Room.memberOf p room := (hmemids p).mp hq
          exact absurd (memberOf_unique hE hc hm0 hrr hm).symm hrne
      · rw [if_neg hq]
        constructor
        · intro hl
          obtain ⟨r, hrr, hm⟩ := (hE p rid').mp hl
          have hrne : rid' ≠ rid := by
            intro hcc
            subst hcc
            rw [hc] at hrr
            cases hrr
            exact hq ((hmemids p).mpr hm)
          refine ⟨r, ?_, hm⟩
          rw [dlookup_derase_ne hrne]
          exact hrr
        · rintro ⟨r, hrr, hm⟩
          have hrne : rid' ≠ rid := by
            intro hcc
            subst hcc
            rw [dlookup_derase_self] at hrr
            cases hrr
          rw [dlookup_derase_ne hrne] at hrr
          exact (hE p rid').mpr ⟨r, hrr, hm⟩
    · intro rid' r hrr
      have hrr' : dlookup rid' (derase rid m.rooms) = some r := hrr
      have hrne : rid' ≠ rid := by
        intro hcc
        subst hcc
        rw [dlookup_derase_self] at hrr'
        cases hrr'
      rw [dlookup_derase_ne hrne] at hrr'
      exact hR rid' r hrr'
    · intro rid' hs
      have hs' : (dlookup rid' (derase rid m.rooms)).isSome := hs
      by_cases hrne : rid' = rid
      · subst hrne
        rw [dlookup_derase_self] at hs'
        simp at hs'
      · rw [dlookup_derase_ne hrne] at hs'
        exact hF rid' hs'

theorem pkeys_dinsert {l : List (Nat × Player)} {pid : Nat} {pl : Player}
    (hk : ∀ e ∈ l, e.2.player_id = e.1) (hpl : pl.player_id = pid) :
    ∀ e ∈ dinsert pid pl l, e.2.player_id = e.1 := by
  intro e he
  rw [dinsert] at he
  rcases List.mem_append.mp he with he | he
  · exact hk e (mem_of_mem_derase he)
  · rw [List.mem_singleton] at he
    subst he
    exact hpl

/-- Admitting one fresh player into one membership map of a registered
room preserves manager well-formedness. -/
theorem join_insert_WF {m : RoomManager} (hE : Exact m)
    (hR : ∀ rid r, dlookup rid m.rooms = some r → RoomWF rid r)
    (hF : Fresh m) {rid pid : Nat} {room room' : Room}
    (hc : dlookup rid m.rooms = some room)
    (hmapc : dlookup pid m.player_room_map = none)
    (hmm : Room.memberOf pid room')
    (hpres : ∀ q, q ≠ pid → (Room.memberOf q room' ↔ Room.memberOf q room))
    (hwf : RoomWF rid room') :
    ManagerWF
      { m with
        rooms := dinsert rid room' m.rooms,
        player_room_map := dinsert pid rid m.player_room_map } := by
  have hnotmem : ∀ rid'' r'', dlookup rid'' m.rooms = some r'' →
      ¬Room.memberOf pid r'' := by
    intro rid'' r'' hrr hm
    have := (hE pid rid'').mpr ⟨r'', hrr, hm⟩
    rw [hmapc] at this
    cases this
  refine ⟨?_, ?_, ?_⟩
  · intro p rid''
    show dlookup p (dinsert pid rid m.player_room_map) = some rid'' ↔
      ∃ r, dlookup rid'' (dinsert rid room' m.rooms) = some r ∧
        Room.memberOf p r
    by_cases hp : p = pid
    · subst hp
      rw [dlookup_dinsert_self]
      constructor
      · intro hs
        have hq : rid'' = rid := (Option.some.inj hs).symm
        subst hq
        exact ⟨room', dlookup_dinsert_self _ _ _, hmm⟩
      · rintro ⟨r, hrr, hm⟩
        by_cases hr : rid'' = rid
        · subst hr
          rfl
        · rw [dlookup_dinsert_ne hr] at hrr
          exact absurd hm (hnotmem rid'' r hrr)
    · rw [dlookup_dinsert_ne hp]
      constructor
      · intro hl
        obtain ⟨r, hrr, hm⟩ := (hE p rid'').mp hl
        by_cases hr : rid'' = rid
        · subst hr
          rw [hc] at hrr
          cases hrr
          exact ⟨room', dlookup_dinsert_self _ _ _, (hpres p hp).mpr hm⟩
        · refine ⟨r, ?_, hm⟩
          rw [dlookup_dinsert_ne hr]
          exact hrr
      · rintro ⟨r, hrr, hm⟩
        by_cases hr : rid'' = rid
        · subst hr
          rw [dlookup_dinsert_self] at hrr
          cases hrr
          exact (hE p rid'').mpr ⟨room, hc, (hpres p hp).mp hm⟩
        · rw [dlookup_dinsert_ne hr] at hrr
          exact (hE p rid'').mpr ⟨r, hrr, hm⟩
  · intro rid'' r hrr
    have hrr' : dlookup rid'' (dinsert rid room' m.rooms) = some r := hrr
    by_cases hr : rid'' = rid
    · subst hr
      rw [dlookup_dinsert_self] at hrr'
      cases hrr'
      exact hwf
    · rw [dlookup_dinsert_ne hr] at hrr'
      exact hR rid'' r hrr'
  · intro rid'' hs
    have hs' : (dlookup rid'' (dinsert rid room' m.rooms)).isSome := hs
    by_cases hr : rid'' = rid
    · subst hr
      exact hF rid'' (by rw [hc]; rfl)
    · rw [dlookup_dinsert_ne hr] at hs'
      exact hF rid'' hs'

theorem join_room_WF {m : RoomManager} (h : ManagerWF m) (rid pid : Nat)
    (pn : List Char) (mx : Nat) :
    ManagerWF (m.join_room rid pid pn mx).2 := by
  obtain ⟨hE, hR, hF⟩ := h
  rcases hc : dlookup rid m.rooms with _ | room
  · have he : (m.join_room rid pid pn mx).2 = m := by
      simp [RoomManager.join_room, hc]
    rw [he]
    exact ⟨hE, hR, hF⟩
  · by_cases h1 : room.status = RoomStatus.CLOSED
    · have he : (m.join_room rid pid pn mx).2 = m := by
        simp [RoomManager.join_room, hc, h1]
      rw [he]
      exact ⟨hE, hR, hF⟩
    by_cases h2 : room.status = RoomStatus.CHARACTER_CREATION ∨
        room.status = RoomStatus.ACTIVE
    · have he : (m.join_room rid pid pn mx).2 = m := by
        simp [RoomManager.join_room, hc, h1, h2]
      rw [he]
      exact ⟨hE, hR, hF⟩
    rcases hmapc : dlookup pid m.player_room_map with _ | rid_old
    case neg.some =>
      have he : (m.join_room rid pid pn mx).2 = m := by
        simp [RoomManager.join_room, hc, h1, h2, hmapc]
      rw [he]
      exact ⟨hE, hR, hF⟩
    case neg.none =>
    by_cases h4 : room.get_active_player_count + room.pending_players.length
        ≥ mx
    · have he : (m.join_room rid pid pn mx).2 = m := by
        simp [RoomManager.join_room, hc, h1, h2, hmapc, h4]
      rw [he]
      exact ⟨hE, hR, hF⟩
    · obtain ⟨hid, hndA, hndP, hkA, hkP, hdisj⟩ := hR rid room hc
      have hnm : ¬Room.memberOf pid room := by
        intro hm
        have := (hE pid rid).mpr ⟨room, hc, hm⟩
        rw [hmapc] at this
        cases this
      have hnmA : dlookup pid room.active_players = none := by
        have : ¬(dlookup pid room.active_players).isSome :=
          fun hs => hnm (Or.inl hs)
        exact Option.not_isSome_iff_eq_none.mp this
      have hnmP : dlookup pid room.pending_players = none := by
        have : ¬(dlookup pid room.pending_players).isSome :=
          fun hs => hnm (Or.inr hs)
        exact Option.not_isSome_iff_eq_none.mp this
      cases hbp : room.paused with
      | false =>
        have he : (m.join_room rid pid pn mx).2 =
            { m with
              rooms :=
                dinsert rid
                  { room with
                    active_players :=
                      dinsert pid { player_id := pid, player_name := pn }
                        room.active_players }
                  m.rooms,
              player_room_map := dinsert pid rid m.player_room_map } := by
          simp [RoomManager.join_room, hc, h1, h2, hmapc, h4, hbp]
        rw [he]
        refine join_insert_WF hE hR hF hc hmapc ?_ ?_ ?_
        · left
          show (dlookup pid (dinsert pid { player_id := pid, player_name := pn }
            room.active_players)).isSome
          rw [dlookup_dinsert_self]
          rfl
        · intro q hq
          show ((dlookup q (dinsert pid
              { player_id := pid, player_name := pn }
              room.active_players)).isSome ∨
            (dlookup q room.pending_players).isSome) ↔ Room.memberOf q room
          rw [dlookup_dinsert_ne hq, Room.memberOf]
        · refine ⟨hid, dkeys_nodup_dinsert _ hndA, hndP, ?_, hkP, ?_⟩
          · exact pkeys_dinsert hkA rfl
          · intro p hs
            by_cases hp : p = pid
            · subst hp
              exact hnmP
            · have hs' : (dlookup p room.active_players).isSome := by
                rw [show dlookup p (dinsert pid
                  { player_id := pid, player_name := pn }
                  room.active_players) = dlookup p room.active_players from
                  dlookup_dinsert_ne hp _ _] at hs
                exact hs
              exact hdisj p hs'
      | true =>
        have he : (m.join_room rid pid pn mx).2 =
            { m with
              rooms :=
                dinsert rid
                  { room with
                    pending_players :=
                      dinsert pid
                        { player_id := pid, player_name := pn,
                          status := PlayerStatus.PENDING }
                        room.pending_players }
                  m.rooms,
              player_room_map := dinsert pid rid m.player_room_map } := by
          simp [RoomManager.join_room, hc, h1, h2, hmapc, h4, hbp]
        rw [he]
        refine join_insert_WF hE hR hF hc hmapc ?_ ?_ ?_
        · right
          show (dlookup pid (dinsert pid
            { player_id := pid, player_name := pn,
              status := PlayerStatus.PENDING }
            room.pending_players)).isSome
          rw [dlookup_dinsert_self]
          rfl
        · intro q hq
          show ((dlookup q room.active_players).isSome ∨
            (dlookup q (dinsert pid
              { player_id := pid, player_name := pn,
                status := PlayerStatus.PENDING }
              room.pending_players)).isSome) ↔ Room.memberOf q room
          rw [dlookup_dinsert_ne hq, Room.memberOf]
        · refine ⟨hid, hndA, dkeys_nodup_dinsert _ hndP, hkA, ?_, ?_⟩
          · exact pkeys_dinsert hkP rfl
          · intro p hs
            by_cases hp : p = pid
            · subst hp
              exact absurd hs (by rw [hnmA]; simp)
            · rw [show dlookup p (dinsert pid
                { player_id := pid, player_name := pn,
                  status := PlayerStatus.PENDING }
                room.pending_players) = dlookup p room.pending_players from
                dlookup_dinsert_ne hp _ _]
              exact hdisj p hs

theorem leave_room_WF {m : RoomManager} (h : ManagerWF m) (pid : Nat) :
    ManagerWF (m.leave_room pid).2 := by
  obtain ⟨hE, hR, hF⟩ := h
  rcases hmp : dlookup pid m.player_room_map with _ | rid
  · have he : (m.leave_room pid).2 = m := by
      simp [RoomManager.leave_room, RoomManager.get_room_by_player, hmp]
    rw [he]
    exact ⟨hE, hR, hF⟩
  rcases hrr : dlookup rid m.rooms with _ | room
  · have he : (m.leave_room pid).2 = m := by
      simp [RoomManager.leave_room, RoomManager.get_room_by_player, hmp, hrr]
    rw [he]
    exact ⟨hE, hR, hF⟩
  have hby : m.get_room_by_player pid = some (rid, room) := by
    simp [RoomManager.get_room_by_player, hmp, hrr]
  set room1 : Room :=
    { room with
      active_players := derase pid room.active_players,
      pending_players := derase pid room.pending_players } with hroom1
  set m1 : RoomManager :=
    { m with
      rooms := dinsert rid room1 m.rooms,
      player_room_map := derase pid m.player_room_map } with hm1
  have hWF1 : ManagerWF m1 := by
    obtain ⟨hid, hndA, hndP, hkA, hkP, hdisj⟩ := hR rid room hrr
    refine ⟨?_, ?_, ?_⟩
    · intro p rid'
      show dlookup p (derase pid m.player_room_map) = some rid' ↔
        ∃ r, dlookup rid' (dinsert rid room1 m.rooms) = some r ∧
          Room.memberOf p r
      by_cases hp : p = pid
      · subst hp
        rw [dlookup_derase_self]
        constructor
        · intro hcontra
          cases hcontra
        · rintro ⟨r, hrr', hm⟩
          by_cases hr : rid' = rid
          · subst hr
            rw [dlookup_dinsert_self] at hrr'
            cases hrr'
            rcases hm with hm | hm
            · rw [show dlookup p room1.active_players = none from
                dlookup_derase_self p room.active_players] at hm
              simp at hm
            · rw [show dlookup p room1.pending_players = none from
                dlookup_derase_self p room.pending_players] at hm
              simp at hm
          · rw [dlookup_dinsert_ne hr] at hrr'
            have hsome := (hE p rid').mpr ⟨r, hrr', hm⟩
            rw [hmp] at hsome
            exact absurd (Option.some.inj hsome).symm hr
      · rw [dlookup_derase_ne hp]
        constructor
        · intro hl
          obtain ⟨r, hrr', hm⟩ := (hE p rid').mp hl
          by_cases hr : rid' = rid
          · subst hr
            rw [hrr] at hrr'
            cases hrr'
            refine ⟨room1, dlookup_dinsert_self _ _ _, ?_⟩
            rcases hm with hm | hm
            · left
              show (dlookup p (derase pid room.active_players)).isSome
              rw [dlookup_derase_ne hp]
              exact hm
            · right
              show (dlookup p (derase pid room.pending_players)).isSome
              rw [dlookup_derase_ne hp]
              exact hm
          · refine ⟨r, ?_, hm⟩
            rw [dlookup_dinsert_ne hr]
            exact hrr'
        · rintro ⟨r, hrr', hm⟩
          by_cases hr : rid' = rid
          · subst hr
            rw [dlookup_dinsert_self] at hrr'
            cases hrr'
            refine (hE p rid').mpr ⟨room, hrr, ?_⟩
            rcases hm with hm | hm
            · left
              have hx : (dlookup p (derase pid room.active_players)).isSome :=
                hm
              rw [dlookup_derase_ne hp] at hx
              exact hx
            · right
              have hx : (dlookup p (derase pid room.pending_players)).isSome :=
                hm
              rw [dlookup_derase_ne hp] at hx
              exact hx
          · rw [dlookup_dinsert_ne hr] at hrr'
            exact (hE p rid').mpr ⟨r, hrr', hm⟩
    · intro rid' r hrr'
      have hrr2 : dlookup rid' (dinsert rid room1 m.rooms) = some r := hrr'
      by_cases hr : rid' = rid
      · subst hr
        rw [dlookup_dinsert_self] at hrr2
        cases hrr2
        refine ⟨hid, dkeys_nodup_derase hndA, dkeys_nodup_derase hndP,
          ?_, ?_, ?_⟩
        · intro e he
          exact hkA e (mem_of_mem_derase he)
        · intro e he
          exact hkP e (mem_of_mem_derase he)
        · intro p hs
          by_cases hp : p = pid
          · subst hp
            have hx : (dlookup p (derase p room.active_players)).isSome := hs
            rw [dlookup_derase_self] at hx
            simp at hx
          · show dlookup p (derase pid room.pending_players) = none
            rw [dlookup_derase_ne hp]
            refine hdisj p ?_
            have hx : (dlookup p (derase pid room.active_players)).isSome := hs
            rw [dlookup_derase_ne hp] at hx
            exact hx
      · rw [dlookup_dinsert_ne hr] at hrr2
        exact hR rid' r hrr2
    · intro rid' hs
      have hs' : (dlookup rid' (dinsert rid room1 m.rooms)).isSome := hs
      by_cases hr : rid' = rid
      · subst hr
        exact hF rid' (by rw [hrr]; rfl)
      · rw [dlookup_dinsert_ne hr] at hs'
        exact hF rid' hs'
  by_cases hh : pid = room.host_id
  · have he : (m.leave_room pid).2 = (m1.close_room room1.room_id).2 := by
      simp only [RoomManager.leave_room, hby]
      rw [if_pos hh]
    rw [he]
    have hridf : room1.room_id = rid := (hR rid room hrr).1
    rw [hridf]
    exact close_room_WF hWF1 rid
  · have he : (m.leave_room pid).2 = m1 := by
      simp only [RoomManager.leave_room, hby]
      rw [if_neg hh]
    rw [he]
    exact hWF1

theorem applyOp_WF {m : RoomManager} (h : ManagerWF m) (op : RegOp) :
    ManagerWF (m.applyOp op) := by
  cases op with
  | create hid hn rn ws t ct => exact create_room_WF h hid hn rn ws t ct
  | join rid pid pn mx => exact join_room_WF h rid pid pn mx
  | leave pid => exact leave_room_WF h pid
  | close rid => exact close_room_WF h rid
  | pause rid pid => exact pause_room_WF h rid pid
  | resume rid pid => exact resume_room_WF h rid pid

theorem runRegOps_WF (ops : List RegOp) {m : RoomManager} (h : ManagerWF m) :
    ManagerWF (runRegOps ops m) := by
  induction ops generalizing m with
  | nil => exact h
  | cons op t ih => exact ih (applyOp_WF h op)

theorem initial_WF (mx : Nat) : ManagerWF { max_rooms := mx } := by
  refine ⟨?_, ?_, ?_⟩
  · intro p rid
    constructor
    · intro hc
      simp [dlookup] at hc
    · rintro ⟨r, hrr, _⟩
      simp [dlookup] at hrr
  · intro rid r hrr
    simp [dlookup] at hrr
  · intro rid hs
    simp [dlookup] at hs

/-- Claim C8: starting from a freshly constructed registry, after every
sequence of registry operations (create, join, leave, close, pause,
resume) the active and pending player-identity sets of every registered
room are disjoint, and the player-to-room reverse index maps a player
to a room exactly when that player is in the union of that room's
active and pending memberships. -/
theorem registry_invariant_all_ops (ops : List RegOp) (mx : Nat) :
    RegistryInvariant (runRegOps ops { max_rooms := mx }) := by
  obtain ⟨hE, hR, hF⟩ := runRegOps_WF ops (initial_WF mx)
  refine ⟨?_, hE⟩
  intro rid r hrr p hs
  exact (hR rid r hrr).2.2.2.2.2 p hs
